import Mathlib

/-!
Verification of the Writer repository's inter-process coordination layer.

The development shallowly embeds the Python sources:
  * `src/python/fifo_handler.py` — `MessageProtocol.create`/`parse`,
    `FifoWriter.write`, and the `FifoReader._read_loop` line dispatch;
  * `src/python/suggestions_panel.py` — the suggestions panel state,
    `_generate_suggestions`, `_fill_section`, `_write_preview_state`,
    `_check_preview_commands`, and one tick of `run`;
  * `src/python/ai_client.py` — `extract_paragraphs` and the data classes.

Python's `json.dumps` / `json.loads` (standard library, called by the code)
are modelled by an executable serializer and recursive-descent reader over an
inductive `Json` type covering null, booleans, arbitrary-precision integers,
strings, arrays and objects (floats are outside the model).  Python `None`
is identified with JSON null.  Exceptions are modelled with `Except`.
-/

namespace Writer

/-- JSON values as produced by `json.loads` / consumed by `json.dumps`.
Python `None` is `Json.null`; numbers are restricted to integers. -/
inductive Json where
  | null : Json
  | bool (b : Bool) : Json
  | int (n : Int) : Json
  | str (s : String) : Json
  | arr (elems : List Json) : Json
  | obj (members : List (String × Json)) : Json
deriving Repr

/-- Whitespace characters skipped by the JSON reader (as in Python's json). -/
def pyWs (c : Char) : Bool :=
  c = ' ' || c = '\t' || c = '\n' || c = '\r'

/-- Drop leading JSON whitespace. -/
def skipWs : List Char → List Char
  | [] => []
  | c :: cs => if pyWs c then skipWs cs else c :: cs

/-- Decimal digit test on code points ('0'..'9'). -/
def isDig (c : Char) : Bool :=
  48 ≤ c.toNat && c.toNat ≤ 57

/-- Lower-case hexadecimal digit for `\uXXXX` escapes. -/
def hexDigitChar (n : Nat) : Char :=
  if n < 10 then Char.ofNat (48 + n) else Char.ofNat (87 + n)

/-- Hexadecimal digit value, accepting both cases, as in the json scanner. -/
def hexVal (c : Char) : Option Nat :=
  if 48 ≤ c.toNat ∧ c.toNat ≤ 57 then some (c.toNat - 48)
  else if 97 ≤ c.toNat ∧ c.toNat ≤ 102 then some (c.toNat - 87)
  else if 65 ≤ c.toNat ∧ c.toNat ≤ 70 then some (c.toNat - 55)
  else none

/-- Serialization of one string character, following `json.dumps` escaping
(quotes, backslashes, and control characters; other characters pass through,
as with `ensure_ascii=False` — an equally valid JSON encoding). -/
def escapeChar (c : Char) : List Char :=
  if c = '"' then ['\\', '"']
  else if c = '\\' then ['\\', '\\']
  else if c = '\n' then ['\\', 'n']
  else if c = '\t' then ['\\', 't']
  else if c = '\r' then ['\\', 'r']
  else if c.toNat = 8 then ['\\', 'b']
  else if c.toNat = 12 then ['\\', 'f']
  else if c.toNat < 32 then
    ['\\', 'u', '0', '0', hexDigitChar (c.toNat / 16), hexDigitChar (c.toNat % 16)]
  else [c]

/-- Escaped body of a JSON string (without the surrounding quotes). -/
def strChars : List Char → List Char
  | [] => []
  | c :: cs => escapeChar c ++ strChars cs

/-- Decimal digits of a natural number, most significant first. -/
def natChars (n : Nat) : List Char :=
  if n = 0 then ['0'] else (Nat.digits 10 n).reverse.map Nat.digitChar

/-- Decimal rendering of an integer, as Python prints ints. -/
def intChars (n : Int) : List Char :=
  if n < 0 then '-' :: natChars n.natAbs else natChars n.toNat

mutual

/-- Character stream of `json.dumps` (default separators `", "` and `": "`). -/
def dumpsChars : Json → List Char
  | .null => 'n' :: 'u' :: ['l', 'l']
  | .bool true => 't' :: 'r' :: ['u', 'e']
  | .bool false => 'f' :: 'a' :: ['l', 's', 'e']
  | .int n => intChars n
  | .str s => '"' :: (strChars s.data ++ ['"'])
  | .arr [] => ['[', ']']
  | .arr (x :: xs) => '[' :: ((dumpsChars x ++ dumpsArrRest xs) ++ [']'])
  | .obj [] => ['{', '}']
  | .obj (kv :: kvs) => '{' :: ((dumpsMember kv ++ dumpsObjRest kvs) ++ ['}'])

/-- Remaining array elements, each preceded by the `", "` separator. -/
def dumpsArrRest : List Json → List Char
  | [] => []
  | x :: xs => ',' :: ' ' :: (dumpsChars x ++ dumpsArrRest xs)

/-- One object member: quoted key, `": "`, value. -/
def dumpsMember : String × Json → List Char
  | (k, v) => '"' :: (strChars k.data ++ ('"' :: ':' :: ' ' :: dumpsChars v))

/-- Remaining object members, each preceded by the `", "` separator. -/
def dumpsObjRest : List (String × Json) → List Char
  | [] => []
  | kv :: kvs => ',' :: ' ' :: (dumpsMember kv ++ dumpsObjRest kvs)

end

/-- `json.dumps`. -/
def dumps (j : Json) : String :=
  String.mk (dumpsChars j)

/-- Accumulate a run of decimal digits (the integer part of a JSON number). -/
def parseDigits : List Char → Nat → Nat × List Char
  | [], acc => (acc, [])
  | c :: cs, acc =>
    if isDig c then parseDigits cs (acc * 10 + (c.toNat - 48)) else (acc, c :: cs)

/-- Read an integer JSON number (optional minus sign, digit run). -/
def parseNum : List Char → Option (Int × List Char)
  | [] => none
  | c :: cs =>
    if c = '-' then
      match cs with
      | [] => none
      | c2 :: _ =>
        if isDig c2 then
          let p := parseDigits cs 0
          some (-(p.1 : Int), p.2)
        else none
    else if isDig c then
      let p := parseDigits (c :: cs) 0
      some ((p.1 : Int), p.2)
    else none

/-- Read the body of a JSON string after the opening quote, undoing the
escapes; literal control characters are rejected (json strict mode). -/
def parseStrBody : List Char → Option (List Char × List Char)
  | [] => none
  | c :: cs =>
    if c = '"' then some ([], cs)
    else if c = '\\' then
      match cs with
      | [] => none
      | e :: cs2 =>
        if e = 'u' then
          match cs2 with
          | h1 :: h2 :: h3 :: h4 :: cs3 =>
            match hexVal h1, hexVal h2, hexVal h3, hexVal h4 with
            | some d1, some d2, some d3, some d4 =>
              let n := ((d1 * 16 + d2) * 16 + d3) * 16 + d4
              if Nat.isValidChar n then
                match parseStrBody cs3 with
                | some (s, r) => some (Char.ofNat n :: s, r)
                | none => none
              else none
            | _, _, _, _ => none
          | _ => none
        else
          match unescapeChar e with
          | some c2 =>
            match parseStrBody cs2 with
            | some (s, r) => some (c2 :: s, r)
            | none => none
          | none => none
    else if c.toNat < 32 then none
    else
      match parseStrBody cs with
      | some (s, r) => some (c :: s, r)
      | none => none

where
  /-- The named single-character escapes accepted by json. -/
  unescapeChar (e : Char) : Option Char :=
    if e = '"' then some '"'
    else if e = '\\' then some '\\'
    else if e = '/' then some '/'
    else if e = 'b' then some (Char.ofNat 8)
    else if e = 'f' then some (Char.ofNat 12)
    else if e = 'n' then some '\n'
    else if e = 'r' then some '\r'
    else if e = 't' then some '\t'
    else none

mutual

/-- Fuel-bounded recursive-descent JSON value reader (the model of the
scanner behind `json.loads`).  Fuel only bounds nesting; any input parses
within fuel `length + 1`. -/
def parseVal : Nat → List Char → Option (Json × List Char)
  | 0, _ => none
  | f + 1, cs =>
    match skipWs cs with
    | [] => none
    | c :: r =>
      if c = 'n' then
        match r with
        | 'u' :: 'l' :: 'l' :: r2 => some (.null, r2)
        | _ => none
      else if c = 't' then
        match r with
        | 'r' :: 'u' :: 'e' :: r2 => some (.bool true, r2)
        | _ => none
      else if c = 'f' then
        match r with
        | 'a' :: 'l' :: 's' :: 'e' :: r2 => some (.bool false, r2)
        | _ => none
      else if c = '"' then
        match parseStrBody r with
        | some (s, r2) => some (.str (String.mk s), r2)
        | none => none
      else if c = '[' then
        match skipWs r with
        | [] => none
        | c2 :: r2 =>
          if c2 = ']' then some (.arr [], r2)
          else
            match parseVal f (c2 :: r2) with
            | some (x, r3) =>
              match parseArrRest f r3 with
              | some (xs, r4) => some (.arr (x :: xs), r4)
              | none => none
            | none => none
      else if c = '{' then
        match skipWs r with
        | [] => none
        | c2 :: r2 =>
          if c2 = '}' then some (.obj [], r2)
          else if c2 = '"' then
            match parseStrBody r2 with
            | some (k, r3) =>
              match parseColonVal f r3 with
              | some (v, r4) =>
                match parseObjRest f r4 with
                | some (kvs, r5) => some (.obj ((String.mk k, v) :: kvs), r5)
                | none => none
              | none => none
            | none => none
          else none
      else
        match parseNum (c :: r) with
        | some (n, r2) => some (.int n, r2)
        | none => none

/-- After an array element: `]` closes, `,` continues with another element. -/
def parseArrRest : Nat → List Char → Option (List Json × List Char)
  | 0, _ => none
  | f + 1, cs =>
    match skipWs cs with
    | [] => none
    | c :: r =>
      if c = ']' then some ([], r)
      else if c = ',' then
        match parseVal f r with
        | some (x, r2) =>
          match parseArrRest f r2 with
          | some (xs, r3) => some (x :: xs, r3)
          | none => none
        | none => none
      else none

/-- A `:` followed by a value (the right-hand side of an object member). -/
def parseColonVal : Nat → List Char → Option (Json × List Char)
  | 0, _ => none
  | f + 1, cs =>
    match skipWs cs with
    | [] => none
    | c :: r => if c = ':' then parseVal f r else none

/-- After an object member: `}` closes, `,` continues with a quoted key. -/
def parseObjRest : Nat → List Char → Option (List (String × Json) × List Char)
  | 0, _ => none
  | f + 1, cs =>
    match skipWs cs with
    | [] => none
    | c :: r =>
      if c = '}' then some ([], r)
      else if c = ',' then
        match skipWs r with
        | [] => none
        | c2 :: r2 =>
          if c2 = '"' then
            match parseStrBody r2 with
            | some (k, r3) =>
              match parseColonVal f r3 with
              | some (v, r4) =>
                match parseObjRest f r4 with
                | some (kvs, r5) => some ((String.mk k, v) :: kvs, r5)
                | none => none
              | none => none
            | none => none
          else none
      else none

end

/-- `json.loads`: parse one value, allow trailing whitespace only. -/
def loads (s : String) : Option Json :=
  match parseVal (2 * s.data.length + 2) s.data with
  | some (j, rest) => if skipWs rest = [] then some j else none
  | none => none

/-- Python `dict.get(k, default)` on a dict built by `json.loads`; later
duplicate keys overwrite earlier ones, so lookup is last-wins. -/
def pyDictGet (kvs : List (String × Json)) (k : String) (dflt : Json) : Json :=
  match kvs.reverse.find? (fun kv => kv.1 == k) with
  | some kv => kv.2
  | none => dflt

/-- Python `x is None` test (`None` is `Json.null` in the model). -/
def Json.isNull : Json → Bool
  | .null => true
  | _ => false

/-- Modelled Python exceptions, by class; `raised` carries `str(e)` of an
exception propagating out of a provider call. -/
inductive PyError where
  | attributeError
  | typeError
  | indexError
  | jsonDecodeError
  | osError
  | raised (msg : String)
deriving Repr, DecidableEq

/-- The `str(e)` rendering stored into `error_message` by the panel. -/
def PyError.message : PyError → String
  | .attributeError => "AttributeError"
  | .typeError => "TypeError"
  | .indexError => "IndexError"
  | .jsonDecodeError => "Expecting value"
  | .osError => "OSError"
  | .raised msg => msg

/-- `MessageProtocol.create`: a `"type"` field plus a `"data"` field unless
the payload is Python `None`, serialized to one JSON line. -/
def MessageProtocol.create (msg_type : String) (data : Json) : String :=
  dumps (.obj (("type", .str msg_type) ::
    (if data.isNull then [] else [("data", data)])))

/-- `MessageProtocol.parse`: decode the line.  On JSON failure it falls back
to `("raw", line)`; on a decoded non-object the `msg.get` attribute access
raises `AttributeError` (only `json.JSONDecodeError` is caught). -/
def MessageProtocol.parse (message : String) : Except PyError (Json × Json) :=
  match loads message with
  | some (.obj kvs) =>
    .ok (pyDictGet kvs "type" (.str "unknown"), pyDictGet kvs "data" .null)
  | some _ => .error .attributeError
  | none => .ok (.str "raw", .str message)

/-! ### Whitespace and digit lemmas -/

theorem skipWs_cons_not {c : Char} (l : List Char) (h : pyWs c = false) :
    skipWs (c :: l) = c :: l := by
  simp [skipWs, h]

theorem skipWs_cons_ws {c : Char} (l : List Char) (h : pyWs c = true) :
    skipWs (c :: l) = skipWs l := by
  simp [skipWs, h]

/-- Everything the value dispatcher needs to know about a digit character. -/
theorem isDig_facts {c : Char} (h : isDig c = true) :
    pyWs c = false ∧ c ≠ 'n' ∧ c ≠ 't' ∧ c ≠ 'f' ∧ c ≠ '"' ∧ c ≠ '[' ∧
      c ≠ '{' ∧ c ≠ '-' ∧ c ≠ ']' := by
  refine ⟨?_, ?_, ?_, ?_, ?_, ?_, ?_, ?_, ?_⟩
  · simp only [pyWs, Bool.or_eq_false_iff, decide_eq_false_iff_not]
    refine ⟨⟨⟨?_, ?_⟩, ?_⟩, ?_⟩ <;> rintro rfl <;> exact absurd h (by decide)
  all_goals rintro rfl; exact absurd h (by decide)

theorem isDig_digitChar {d : Nat} (h : d < 10) : isDig (Nat.digitChar d) = true := by
  interval_cases d <;> decide

theorem digitChar_val {d : Nat} (h : d < 10) : (Nat.digitChar d).toNat - 48 = d := by
  interval_cases d <;> decide

theorem natChars_ne_nil (n : Nat) : natChars n ≠ [] := by
  unfold natChars
  split
  · simp
  · simpa using Nat.digits_ne_nil_iff_ne_zero.mpr (by assumption)

theorem natChars_all_dig (n : Nat) : ∀ c ∈ natChars n, isDig c = true := by
  intro c hc
  unfold natChars at hc
  split at hc
  · simp at hc
    subst hc
    decide
  · simp only [List.mem_map, List.mem_reverse] at hc
    obtain ⟨d, hd, rfl⟩ := hc
    exact isDig_digitChar (Nat.digits_lt_base (by norm_num) hd)

/-- True when the list does not start with a decimal digit, so a preceding
number literal cannot absorb its head. -/
def noDigitHead : List Char → Bool
  | [] => true
  | c :: _ => !isDig c

theorem parseDigits_spec (ds : List Char) (rest : List Char) (acc : Nat)
    (hds : ∀ c ∈ ds, isDig c = true) (hrest : noDigitHead rest = true) :
    parseDigits (ds ++ rest) acc
      = (List.foldl (fun a c => a * 10 + (c.toNat - 48)) acc ds, rest) := by
  induction ds generalizing acc with
  | nil =>
    cases rest with
    | nil => rfl
    | cons c t =>
      simp only [noDigitHead, Bool.not_eq_true'] at hrest
      simp [parseDigits, hrest]
  | cons c t ih =>
    have hc := hds c (by simp)
    simp only [List.cons_append, parseDigits, hc, if_true, List.foldl_cons]
    exact ih _ (fun x hx => hds x (by simp [hx]))

theorem foldl_congr_mem {α β : Type} (f g : β → α → β) (l : List α) (b : β)
    (h : ∀ x ∈ l, ∀ acc, f acc x = g acc x) : l.foldl f b = l.foldl g b := by
  induction l generalizing b with
  | nil => rfl
  | cons x t ih =>
    simp only [List.foldl_cons, h x (by simp)]
    exact ih _ fun y hy => h y (by simp [hy])

theorem foldl_rev_ofDigits (l : List Nat) (acc : Nat) :
    List.foldl (fun a d => a * 10 + d) acc l.reverse
      = acc * 10 ^ l.length + Nat.ofDigits 10 l := by
  induction l generalizing acc with
  | nil => simp
  | cons d t ih =>
    rw [List.reverse_cons, List.foldl_append, ih]
    simp only [List.foldl_cons, List.foldl_nil, Nat.ofDigits_cons, List.length_cons]
    ring

theorem foldl_natChars (n : Nat) :
    List.foldl (fun a c => a * 10 + (c.toNat - 48)) 0 (natChars n) = n := by
  unfold natChars
  split
  · subst n
    decide
  · rw [List.foldl_map, foldl_congr_mem _ (fun a d => a * 10 + d) _ 0 ?_,
      foldl_rev_ofDigits, Nat.ofDigits_digits]
    · ring
    · intro d hd acc
      rw [digitChar_val (Nat.digits_lt_base (by norm_num) (List.mem_reverse.mp hd))]

theorem parseDigits_natChars (n : Nat) (rest : List Char)
    (h : noDigitHead rest = true) :
    parseDigits (natChars n ++ rest) 0 = (n, rest) := by
  rw [parseDigits_spec _ _ _ (natChars_all_dig n) h, foldl_natChars]

theorem parseNum_intChars (n : Int) (rest : List Char)
    (h : noDigitHead rest = true) :
    parseNum (intChars n ++ rest) = some (n, rest) := by
  unfold intChars
  split
  · rename_i hneg
    rcases hcs : natChars n.natAbs with _ | ⟨c, t⟩
    · exact absurd hcs (natChars_ne_nil _)
    · have hdig : isDig c = true := by
        have := natChars_all_dig n.natAbs c
        rw [hcs] at this
        exact this (by simp)
      have hpd := parseDigits_natChars n.natAbs rest h
      rw [hcs, List.cons_append] at hpd
      simp only [List.cons_append, parseNum, if_pos rfl, hdig, if_true, hpd]
      simp only [Option.some.injEq, Prod.mk.injEq, and_true]
      omega
  · rename_i hpos
    rcases hcs : natChars n.toNat with _ | ⟨c, t⟩
    · exact absurd hcs (natChars_ne_nil _)
    · have hdig : isDig c = true := by
        have := natChars_all_dig n.toNat c
        rw [hcs] at this
        exact this (by simp)
      have hne : c ≠ '-' := (isDig_facts hdig).2.2.2.2.2.2.2.1
      have hpd := parseDigits_natChars n.toNat rest h
      rw [hcs] at hpd
      simp only [List.cons_append, parseNum, if_neg hne, hdig, if_true]
      rw [← List.cons_append, ← hcs, parseDigits_natChars n.toNat rest h]
      simp only [Option.some.injEq, Prod.mk.injEq, and_true]
      omega

/-! ### String body round trip -/

theorem hexVal_hexDigitChar : ∀ k < 16, hexVal (hexDigitChar k) = some k := by
  decide

theorem parseStrBody_strChars (cs rest : List Char) :
    parseStrBody (strChars cs ++ ('"' :: rest)) = some (cs, rest) := by
  induction cs with
  | nil =>
    show parseStrBody ('"' :: rest) = _
    rw [parseStrBody.eq_def]
    simp
  | cons c t ih =>
    show parseStrBody ((escapeChar c ++ strChars t) ++ '"' :: rest) = _
    rw [List.append_assoc]
    unfold escapeChar
    by_cases h1 : c = '"'
    · subst h1
      rw [if_pos rfl, List.cons_append, List.cons_append, List.nil_append,
        parseStrBody.eq_def]
      simp [parseStrBody.unescapeChar, ih]
    · rw [if_neg h1]
      by_cases h2 : c = '\\'
      · subst h2
        rw [if_pos rfl, List.cons_append, List.cons_append, List.nil_append,
          parseStrBody.eq_def]
        simp [parseStrBody.unescapeChar, ih]
      · rw [if_neg h2]
        by_cases h3 : c = '\n'
        · subst h3
          rw [if_pos rfl, List.cons_append, List.cons_append, List.nil_append,
            parseStrBody.eq_def]
          simp [parseStrBody.unescapeChar, ih]
        · rw [if_neg h3]
          by_cases h4 : c = '\t'
          · subst h4
            rw [if_pos rfl, List.cons_append, List.cons_append, List.nil_append,
              parseStrBody.eq_def]
            simp [parseStrBody.unescapeChar, ih]
          · rw [if_neg h4]
            by_cases h5 : c = '\r'
            · subst h5
              rw [if_pos rfl, List.cons_append, List.cons_append, List.nil_append,
                parseStrBody.eq_def]
              simp [parseStrBody.unescapeChar, ih]
            · rw [if_neg h5]
              by_cases h6 : c.toNat = 8
              · rw [if_pos h6]
                have hc : Char.ofNat 8 = c := by
                  rw [← h6, Char.ofNat_toNat]
                rw [List.cons_append, List.cons_append, List.nil_append,
                  parseStrBody.eq_def]
                simp [parseStrBody.unescapeChar, ih, hc]
                exact hc
              · rw [if_neg h6]
                by_cases h7 : c.toNat = 12
                · rw [if_pos h7]
                  have hc : Char.ofNat 12 = c := by
                    rw [← h7, Char.ofNat_toNat]
                  rw [List.cons_append, List.cons_append, List.nil_append,
                    parseStrBody.eq_def]
                  simp [parseStrBody.unescapeChar, ih, hc]
                  exact hc
                · rw [if_neg h7]
                  by_cases h8 : c.toNat < 32
                  · rw [if_pos h8]
                    have hv1 := hexVal_hexDigitChar (c.toNat / 16) (by omega)
                    have hv2 := hexVal_hexDigitChar (c.toNat % 16) (by omega)
                    have hn : ((0 * 16 + 0) * 16 + c.toNat / 16) * 16 + c.toNat % 16
                        = c.toNat := by omega
                    have hvalid : Nat.isValidChar c.toNat := Or.inl (by omega)
                    have h0 : hexVal '0' = some 0 := by decide
                    simp only [List.cons_append, List.nil_append]
                    rw [parseStrBody.eq_def]
                    simp only [hv1, hv2, ih]
                    simp only [h0, hn, if_pos hvalid, Char.ofNat_toNat]
                    simp
                  · rw [if_neg h8]
                    simp only [List.cons_append, List.nil_append]
                    rw [parseStrBody.eq_def]
                    simp [h1, h2, h8, ih]

/-! ### Fuel bounds for the reader -/

mutual

/-- Fuel sufficient for the reader to traverse a value. -/
def sizeJ : Json → Nat
  | .null => 1
  | .bool _ => 1
  | .int _ => 1
  | .str _ => 1
  | .arr [] => 1
  | .arr (x :: xs) => 2 + sizeJ x + sizeArr xs
  | .obj [] => 1
  | .obj (kv :: kvs) => 3 + sizeJ kv.2 + sizeObj kvs

/-- Fuel sufficient for the remaining elements of an array. -/
def sizeArr : List Json → Nat
  | [] => 1
  | x :: xs => 2 + sizeJ x + sizeArr xs

/-- Fuel sufficient for the remaining members of an object. -/
def sizeObj : List (String × Json) → Nat
  | [] => 1
  | kv :: kvs => 3 + sizeJ kv.2 + sizeObj kvs

end

theorem sizeJ_pos (j : Json) : 1 ≤ sizeJ j := by
  cases j with
  | arr xs => cases xs <;> simp [sizeJ] <;> omega
  | obj kvs => cases kvs <;> simp [sizeJ] <;> omega
  | _ => simp [sizeJ]

theorem sizeArr_pos (xs : List Json) : 1 ≤ sizeArr xs := by
  cases xs <;> simp [sizeArr] <;> omega

theorem sizeObj_pos (kvs : List (String × Json)) : 1 ≤ sizeObj kvs := by
  cases kvs <;> simp [sizeObj] <;> omega

/-- The first character serialized for an integer: a minus sign or a digit,
hence none of the dispatcher's other branches apply. -/
theorem intChars_head (n : Int) :
    ∃ c t, intChars n = c :: t ∧ pyWs c = false ∧ c ≠ 'n' ∧ c ≠ 't' ∧
      c ≠ 'f' ∧ c ≠ '"' ∧ c ≠ '[' ∧ c ≠ '{' ∧ c ≠ ']' := by
  unfold intChars
  split
  · exact ⟨'-', _, rfl, by decide, by decide, by decide, by decide, by decide,
      by decide, by decide, by decide⟩
  · rcases hcs : natChars n.toNat with _ | ⟨c, t⟩
    · exact absurd hcs (natChars_ne_nil _)
    · have hd : isDig c = true := by
        have := natChars_all_dig n.toNat c
        rw [hcs] at this
        exact this (by simp)
      obtain ⟨hws, hn, ht, hf, hq, hb, hbr, _, hrb⟩ := isDig_facts hd
      exact ⟨c, t, rfl, hws, hn, ht, hf, hq, hb, hbr, hrb⟩

/-- The head of any serialized value is not whitespace and not `]`. -/
theorem dumpsChars_head (j : Json) :
    ∃ c t, dumpsChars j = c :: t ∧ pyWs c = false ∧ c ≠ ']' := by
  cases j with
  | null => exact ⟨'n', _, rfl, by decide, by decide⟩
  | bool b =>
    cases b
    · exact ⟨'f', _, rfl, by decide, by decide⟩
    · exact ⟨'t', _, rfl, by decide, by decide⟩
  | int n =>
    obtain ⟨c, t, hcs, hws, _, _, _, _, _, _, hrb⟩ := intChars_head n
    exact ⟨c, t, hcs, hws, hrb⟩
  | str s => exact ⟨'"', _, rfl, by decide, by decide⟩
  | arr xs =>
    cases xs
    · exact ⟨'[', _, rfl, by decide, by decide⟩
    · exact ⟨'[', _, rfl, by decide, by decide⟩
  | obj kvs =>
    cases kvs
    · exact ⟨'{', _, rfl, by decide, by decide⟩
    · exact ⟨'{', _, rfl, by decide, by decide⟩

theorem noDigit_arrRest (xs : List Json) (rest : List Char) :
    noDigitHead (dumpsArrRest xs ++ ']' :: rest) = true := by
  cases xs <;> simp [dumpsArrRest, noDigitHead, isDig]

theorem noDigit_objRest (kvs : List (String × Json)) (rest : List Char) :
    noDigitHead (dumpsObjRest kvs ++ '}' :: rest) = true := by
  cases kvs with
  | nil => simp [dumpsObjRest, noDigitHead, isDig]
  | cons kv kvs => simp [dumpsObjRest, noDigitHead, isDig]

/-- Reading a value ignores one leading whitespace character. -/
theorem parseVal_ws {c : Char} (g : Nat) (l : List Char) (h : pyWs c = true) :
    parseVal g (c :: l) = parseVal g l := by
  cases g with
  | zero => rfl
  | succ g =>
    simp only [parseVal]
    rw [skipWs_cons_ws _ h]

/-! ### The reader inverts the serializer -/

/-- Joint round-trip statement for values, array tails, member values and
object tails, by induction on fuel. -/
theorem parse_dumps (f : Nat) :
    (∀ j rest, sizeJ j ≤ f → noDigitHead rest = true →
        parseVal f (dumpsChars j ++ rest) = some (j, rest)) ∧
    (∀ xs rest, sizeArr xs ≤ f →
        parseArrRest f (dumpsArrRest xs ++ ']' :: rest) = some (xs, rest)) ∧
    (∀ v rest, sizeJ v + 1 ≤ f → noDigitHead rest = true →
        parseColonVal f (':' :: ' ' :: (dumpsChars v ++ rest)) = some (v, rest)) ∧
    (∀ kvs rest, sizeObj kvs ≤ f →
        parseObjRest f (dumpsObjRest kvs ++ '}' :: rest) = some (kvs, rest)) := by
  have hq : ∀ X : List Char, skipWs ('"' :: X) = '"' :: X :=
    fun X => skipWs_cons_not X (by decide)
  have hsp : ∀ X : List Char, skipWs (' ' :: X) = skipWs X :=
    fun X => skipWs_cons_ws X (by decide)
  induction f with
  | zero =>
    refine ⟨fun j _ h _ => absurd h (by have := sizeJ_pos j; omega),
      fun xs _ h => absurd h (by have := sizeArr_pos xs; omega),
      fun v _ h _ => absurd h (by have := sizeJ_pos v; omega),
      fun kvs _ h => absurd h (by have := sizeObj_pos kvs; omega)⟩
  | succ f ih =>
    obtain ⟨ihV, ihA, ihC, ihO⟩ := ih
    have hval : ∀ j rest, sizeJ j ≤ f + 1 → noDigitHead rest = true →
        parseVal (f + 1) (dumpsChars j ++ rest) = some (j, rest) := by
      intro j rest hsize hrest
      cases j with
      | null =>
        have hsk : ∀ X : List Char, skipWs ('n' :: X) = 'n' :: X :=
          fun X => skipWs_cons_not X (by decide)
        simp [dumpsChars, parseVal, hsk]
      | bool b =>
        have hsk1 : ∀ X : List Char, skipWs ('t' :: X) = 't' :: X :=
          fun X => skipWs_cons_not X (by decide)
        have hsk2 : ∀ X : List Char, skipWs ('f' :: X) = 'f' :: X :=
          fun X => skipWs_cons_not X (by decide)
        cases b <;> simp [dumpsChars, parseVal, hsk1, hsk2]
      | int n =>
        obtain ⟨c, t, hcs, hws, h1, h2, h3, h4, h5, h6, _⟩ := intChars_head n
        have hpn := parseNum_intChars n rest hrest
        rw [hcs, List.cons_append] at hpn
        have hsk : ∀ X : List Char, skipWs (c :: X) = c :: X :=
          fun X => skipWs_cons_not X hws
        simp only [dumpsChars]
        rw [hcs]
        simp [parseVal, hsk, h1, h2, h3, h4, h5, h6, hpn]
      | str s =>
        have hps := parseStrBody_strChars s.data rest
        simp [dumpsChars, parseVal, hq, hps]
      | arr xs =>
        have hsk : ∀ X : List Char, skipWs ('[' :: X) = '[' :: X :=
          fun X => skipWs_cons_not X (by decide)
        cases xs with
        | nil =>
          have hsk2 : ∀ X : List Char, skipWs (']' :: X) = ']' :: X :=
            fun X => skipWs_cons_not X (by decide)
          simp [dumpsChars, parseVal, hsk, hsk2]
        | cons x xs =>
          have hx : sizeJ x ≤ f := by
            simp only [sizeJ] at hsize
            have := sizeArr_pos xs
            omega
          have hxs : sizeArr xs ≤ f := by
            simp only [sizeJ] at hsize
            have := sizeJ_pos x
            omega
          obtain ⟨c, t, hcs, hws, hrb⟩ := dumpsChars_head x
          have hinner := ihV x (dumpsArrRest xs ++ ']' :: rest) hx
            (noDigit_arrRest xs rest)
          have htail := ihA xs rest hxs
          rw [hcs, List.cons_append] at hinner
          have hsk2 : ∀ X : List Char, skipWs (c :: X) = c :: X :=
            fun X => skipWs_cons_not X hws
          simp only [dumpsChars]
          rw [hcs]
          simp [parseVal, hsk, hsk2, hrb, hinner, htail]
      | obj kvs =>
        have hsk : ∀ X : List Char, skipWs ('{' :: X) = '{' :: X :=
          fun X => skipWs_cons_not X (by decide)
        cases kvs with
        | nil =>
          have hsk2 : ∀ X : List Char, skipWs ('}' :: X) = '}' :: X :=
            fun X => skipWs_cons_not X (by decide)
          simp [dumpsChars, parseVal, hsk, hsk2]
        | cons kv kvs =>
          obtain ⟨k, v⟩ := kv
          have hv : sizeJ v + 1 ≤ f := by
            simp only [sizeJ] at hsize
            have := sizeObj_pos kvs
            omega
          have hkvs : sizeObj kvs ≤ f := by
            simp only [sizeJ] at hsize
            have := sizeJ_pos v
            omega
          have hmem := ihC v (dumpsObjRest kvs ++ '}' :: rest) hv
            (noDigit_objRest kvs rest)
          have htail := ihO kvs rest hkvs
          have hps := parseStrBody_strChars k.data
            (':' :: ' ' :: (dumpsChars v ++ (dumpsObjRest kvs ++ '}' :: rest)))
          simp [dumpsChars, dumpsMember, parseVal, hsk, hq, hps, hmem, htail]
    refine ⟨hval, ?_, ?_, ?_⟩
    · intro xs rest hsize
      cases xs with
      | nil =>
        have hsk : ∀ X : List Char, skipWs (']' :: X) = ']' :: X :=
          fun X => skipWs_cons_not X (by decide)
        simp [dumpsArrRest, parseArrRest, hsk]
      | cons x xs =>
        have hsk : ∀ X : List Char, skipWs (',' :: X) = ',' :: X :=
          fun X => skipWs_cons_not X (by decide)
        have hx : sizeJ x ≤ f := by
          simp only [sizeArr] at hsize
          have := sizeArr_pos xs
          omega
        have hxs : sizeArr xs ≤ f := by
          simp only [sizeArr] at hsize
          have := sizeJ_pos x
          omega
        have hinner := ihV x (dumpsArrRest xs ++ ']' :: rest) hx
          (noDigit_arrRest xs rest)
        have htail := ihA xs rest hxs
        have hwsp : parseVal f (' ' :: (dumpsChars x ++ (dumpsArrRest xs ++ ']' :: rest)))
            = parseVal f (dumpsChars x ++ (dumpsArrRest xs ++ ']' :: rest)) :=
          parseVal_ws f _ (by decide)
        simp [dumpsArrRest, parseArrRest, hsk, hwsp, hinner, htail]
    · intro v rest hsize hrest
      have hv : sizeJ v ≤ f := by omega
      have hin := ihV v rest hv hrest
      have hsk : ∀ X : List Char, skipWs (':' :: X) = ':' :: X :=
        fun X => skipWs_cons_not X (by decide)
      have hwsp : parseVal f (' ' :: (dumpsChars v ++ rest))
          = parseVal f (dumpsChars v ++ rest) := parseVal_ws f _ (by decide)
      simp [parseColonVal, hsk, hwsp, hin]
    · intro kvs rest hsize
      cases kvs with
      | nil =>
        have hsk : ∀ X : List Char, skipWs ('}' :: X) = '}' :: X :=
          fun X => skipWs_cons_not X (by decide)
        simp [dumpsObjRest, parseObjRest, hsk]
      | cons kv kvs2 =>
        obtain ⟨k, v⟩ := kv
        have hsk : ∀ X : List Char, skipWs (',' :: X) = ',' :: X :=
          fun X => skipWs_cons_not X (by decide)
        have hv : sizeJ v + 1 ≤ f := by
          simp only [sizeObj] at hsize
          have := sizeObj_pos kvs2
          omega
        have hkvs : sizeObj kvs2 ≤ f := by
          simp only [sizeObj] at hsize
          have := sizeJ_pos v
          omega
        have hmem := ihC v (dumpsObjRest kvs2 ++ '}' :: rest) hv
          (noDigit_objRest kvs2 rest)
        have htail := ihO kvs2 rest hkvs
        have hps := parseStrBody_strChars k.data
          (':' :: ' ' :: (dumpsChars v ++ (dumpsObjRest kvs2 ++ '}' :: rest)))
        simp [dumpsObjRest, dumpsMember, parseObjRest, hsk, hsp, hq, hps, hmem, htail]

/-- The fuel bound `sizeJ` is dominated by the serialized length, so the
fuel `json.loads` allots always suffices for serializer output.  Stated
jointly with the list forms; strong induction on the structural size. -/
theorem size_le_len_all (n : Nat) :
    (∀ j : Json, sizeOf j ≤ n → sizeJ j ≤ 2 * (dumpsChars j).length) ∧
    (∀ xs : List Json, sizeOf xs ≤ n →
      sizeArr xs ≤ 2 * (dumpsArrRest xs).length + 2) ∧
    (∀ kvs : List (String × Json), sizeOf kvs ≤ n →
      sizeObj kvs ≤ 2 * (dumpsObjRest kvs).length + 2) := by
  induction n using Nat.strong_induction_on with
  | _ n ih =>
    refine ⟨?_, ?_, ?_⟩
    · intro j hj
      cases j with
      | null => simp [sizeJ, dumpsChars]
      | bool b => cases b <;> simp [sizeJ, dumpsChars]
      | int m =>
        obtain ⟨c, t, hcs, -⟩ := intChars_head m
        simp only [sizeJ, dumpsChars, hcs, List.length_cons]
        omega
      | str s =>
        simp only [sizeJ, dumpsChars, List.length_cons, List.length_append]
        omega
      | arr xs =>
        cases xs with
        | nil => simp [sizeJ, dumpsChars]
        | cons x xs =>
          have hx : sizeOf x < n := by
            have h1 : sizeOf (Json.arr (x :: xs)) = 1 + sizeOf (x :: xs) := by
              simp
            have h2 : sizeOf (x :: xs) = 1 + sizeOf x + sizeOf xs := by
              simp
            omega
          have hxs : sizeOf xs < n := by
            have h1 : sizeOf (Json.arr (x :: xs)) = 1 + sizeOf (x :: xs) := by
              simp
            have h2 : sizeOf (x :: xs) = 1 + sizeOf x + sizeOf xs := by
              simp
            omega
          have ihx := (ih (sizeOf x) hx).1 x le_rfl
          have ihxs := (ih (sizeOf xs) hxs).2.1 xs le_rfl
          simp only [sizeJ, dumpsChars, List.length_cons, List.length_append]
          omega
      | obj kvs =>
        cases kvs with
        | nil => simp [sizeJ, dumpsChars]
        | cons kv kvs =>
          obtain ⟨k, v⟩ := kv
          have hv : sizeOf v < n := by
            have h1 : sizeOf (Json.obj ((k, v) :: kvs)) = 1 + sizeOf ((k, v) :: kvs) := by
              simp
            have h2 : sizeOf ((k, v) :: kvs) = 1 + sizeOf (k, v) + sizeOf kvs := by
              simp
            have h3 : sizeOf (k, v) = 1 + sizeOf k + sizeOf v := by
              simp
            omega
          have hkvs : sizeOf kvs < n := by
            have h1 : sizeOf (Json.obj ((k, v) :: kvs)) = 1 + sizeOf ((k, v) :: kvs) := by
              simp
            have h2 : sizeOf ((k, v) :: kvs) = 1 + sizeOf (k, v) + sizeOf kvs := by
              simp
            have h3 : sizeOf (k, v) = 1 + sizeOf k + sizeOf v := by
              simp
            omega
          have ihv := (ih (sizeOf v) hv).1 v le_rfl
          have ihkvs := (ih (sizeOf kvs) hkvs).2.2 kvs le_rfl
          simp only [sizeJ, dumpsChars, dumpsMember, List.length_cons,
            List.length_append]
          omega
    · intro xs hxs0
      cases xs with
      | nil => simp [sizeArr, dumpsArrRest]
      | cons x xs =>
        have hx : sizeOf x < n := by
          have h2 : sizeOf (x :: xs) = 1 + sizeOf x + sizeOf xs := by
            simp
          omega
        have hxs : sizeOf xs < n := by
          have h2 : sizeOf (x :: xs) = 1 + sizeOf x + sizeOf xs := by
            simp
          omega
        have ihx := (ih (sizeOf x) hx).1 x le_rfl
        have ihxs := (ih (sizeOf xs) hxs).2.1 xs le_rfl
        simp only [sizeArr, dumpsArrRest, List.length_cons, List.length_append]
        omega
    · intro kvs hkvs0
      cases kvs with
      | nil => simp [sizeObj, dumpsObjRest]
      | cons kv kvs =>
        obtain ⟨k, v⟩ := kv
        have hv : sizeOf v < n := by
          have h2 : sizeOf ((k, v) :: kvs) = 1 + sizeOf (k, v) + sizeOf kvs := by
            simp
          have h3 : sizeOf (k, v) = 1 + sizeOf k + sizeOf v := by
            simp
          omega
        have hkvs : sizeOf kvs < n := by
          have h2 : sizeOf ((k, v) :: kvs) = 1 + sizeOf (k, v) + sizeOf kvs := by
            simp
          omega
        have ihv := (ih (sizeOf v) hv).1 v le_rfl
        have ihkvs := (ih (sizeOf kvs) hkvs).2.2 kvs le_rfl
        simp only [sizeObj, dumpsObjRest, dumpsMember, List.length_cons,
          List.length_append]
        omega

theorem sizeJ_le (j : Json) : sizeJ j ≤ 2 * (dumpsChars j).length :=
  (size_le_len_all (sizeOf j)).1 j le_rfl

/-- The reader inverts the serializer at the string level. -/
theorem loads_dumps (j : Json) : loads (dumps j) = some j := by
  have h := (parse_dumps (2 * (dumpsChars j).length + 2)).1 j []
    (by have := sizeJ_le j; omega) rfl
  rw [List.append_nil] at h
  show (match parseVal (2 * (dumpsChars j).length + 2) (dumpsChars j) with
    | some (j, rest) => if skipWs rest = [] then some j else none
    | none => none) = some j
  rw [h]
  rfl

/-! ### Claims about the message protocol -/

/-- Helper for C1: the non-`None`-payload case. -/
theorem parse_create_of_not_null (msg_type : String) (data : Json)
    (hd : data.isNull = false) :
    MessageProtocol.parse (MessageProtocol.create msg_type data)
      = .ok (.str msg_type, data) := by
  unfold MessageProtocol.create
  rw [if_neg (by simp [hd])]
  unfold MessageProtocol.parse
  rw [loads_dumps]
  simp [pyDictGet, List.find?]

/-- C1: for every message type string and every JSON-representable payload
(`Json.null` being Python `None`, the omitted-key case), decoding the encoded
line returns exactly the pair of the type tag and the payload:
`parse (create t d) = ok (t, d)`. -/
theorem parse_create_roundtrip (msg_type : String) (data : Json) :
    MessageProtocol.parse (MessageProtocol.create msg_type data)
      = .ok (.str msg_type, data) := by
  cases data with
  | null =>
    unfold MessageProtocol.create
    rw [if_pos (show Json.null.isNull = true from rfl)]
    unfold MessageProtocol.parse
    rw [loads_dumps]
    simp [pyDictGet, List.find?]
  | bool b => exact parse_create_of_not_null _ _ rfl
  | int n => exact parse_create_of_not_null _ _ rfl
  | str s => exact parse_create_of_not_null _ _ rfl
  | arr xs => exact parse_create_of_not_null _ _ rfl
  | obj kvs => exact parse_create_of_not_null _ _ rfl

/-- C2 counterexample: the single line `42` is not a valid encoded message,
yet `MessageProtocol.parse` raises `AttributeError` instead of returning
`("raw", line)`: `json.loads` succeeds with a non-dict and only
`json.JSONDecodeError` is caught before `msg.get` is attempted. -/
theorem parse_int_line_raises :
    MessageProtocol.parse "42" = .error .attributeError := rfl

/-- C2 amended: for every single-line input that is not valid JSON (the
decode itself fails), `parse` returns `("raw", line)` with the original line
as data and does not raise.  (Lines that are valid JSON but not objects,
such as `42`, instead raise `AttributeError`.) -/
theorem parse_raw_fallback (line : String) (h : loads line = none) :
    MessageProtocol.parse line = .ok (.str "raw", .str line) := by
  unfold MessageProtocol.parse
  rw [h]

theorem parse_raw_fallback_witness :
    loads "hello" = none ∧
      MessageProtocol.parse "hello" = .ok (.str "raw", .str "hello") :=
  ⟨rfl, parse_raw_fallback "hello" rfl⟩

/-! ### Channel Endpoint write path (`FifoWriter` in fifo_handler.py) -/

/-- One named pipe: whether a reader currently holds the read end, and the
messages that have reached a reader. -/
structure FifoPipe where
  reader_attached : Bool
  delivered : List String

/-- `os.open(path, O_WRONLY | O_NONBLOCK)` on a fifo raises `OSError`
(ENXIO) when no process has the read end open. -/
def os_open_wronly_nonblock (pipe : FifoPipe) : Except PyError Unit :=
  if pipe.reader_attached then .ok () else .error .osError

/-- `FifoWriter.write`: open the fifo non-blocking and write the message with
a trailing newline (`message.rstrip('\n') + '\n'`); any `OSError` is
swallowed (`except OSError: pass`), so with no reader the call returns
normally and the message is dropped. -/
def FifoWriter.write (pipe : FifoPipe) (message : String) :
    Except PyError FifoPipe :=
  match os_open_wronly_nonblock pipe with
  | .ok _ =>
    .ok { pipe with
      delivered := pipe.delivered ++
        [(message.dropRightWhile (· = '\n')).push '\n'] }
  | .error _ => .ok pipe

/-- A sequence of `write` calls on the same endpoint. -/
def FifoWriter.write_all (pipe : FifoPipe) :
    List String → Except PyError FifoPipe
  | [] => .ok pipe
  | m :: ms =>
    match FifoWriter.write pipe m with
    | .ok pipe2 => FifoWriter.write_all pipe2 ms
    | .error e => .error e

/-- C8: for every sequence of writes performed while no reader is attached,
every write returns normally (no exception is raised) and nothing is
retained in any buffer: the delivered list stays exactly as it was. -/
theorem write_all_no_reader (msgs : List String) (delivered : List String) :
    FifoWriter.write_all ⟨false, delivered⟩ msgs = .ok ⟨false, delivered⟩ := by
  induction msgs with
  | nil => rfl
  | cons m ms ih =>
    simp only [FifoWriter.write_all, FifoWriter.write, os_open_wronly_nonblock]
    exact ih

/-! ### Subscription-loop line dispatch (`FifoReader._read_loop`) -/

/-- Python `not line.strip()`: the line is entirely whitespace. -/
def pyBlank (s : String) : Bool :=
  s.data.all fun c => c.toNat = 9 || c.toNat = 10 || c.toNat = 11 ||
    c.toNat = 12 || c.toNat = 13 || c.toNat = 32

/-- `buffer.split('\n', 1)` when the buffer contains a newline. -/
def splitFirstNl : List Char → Option (List Char × List Char)
  | [] => none
  | c :: cs =>
    if c = '\n' then some ([], cs)
    else
      match splitFirstNl cs with
      | some (l, r) => some (c :: l, r)
      | none => none

theorem splitFirstNl_length {cs l r : List Char}
    (h : splitFirstNl cs = some (l, r)) : r.length < cs.length := by
  induction cs generalizing l with
  | nil => simp [splitFirstNl] at h
  | cons c t ih =>
    unfold splitFirstNl at h
    by_cases hc : c = '\n'
    · rw [if_pos hc] at h
      cases h
      simp
    · rw [if_neg hc] at h
      cases hsp : splitFirstNl t with
      | none =>
        rw [hsp] at h
        exact absurd h (by simp)
      | some p =>
        obtain ⟨l2, r2⟩ := p
        rw [hsp] at h
        cases h
        have := ih hsp
        simp only [List.length_cons]
        omega

/-- In-process state of one subscription read loop. -/
structure ReaderState where
  buffer : List Char
  fd_open : Bool
  running : Bool
  dispatched : List String

/-- The inner `while '\n' in buffer` loop of `_read_loop`: repeatedly split
one line off the buffer; each non-blank line is handed to the callback inside
`try/except Exception: pass`, so a callback failure is swallowed and the loop
moves on to the next line; the unterminated tail stays buffered. -/
def drain (callback : String → Except PyError Unit) (st : ReaderState)
    (cs : List Char) : ReaderState :=
  match hsp : splitFirstNl cs with
  | none => { st with buffer := cs }
  | some (l, r) =>
    let line := String.mk l
    if pyBlank line then drain callback st r
    else
      match callback line with
      | .ok _ =>
        drain callback { st with dispatched := st.dispatched ++ [line] } r
      | .error _ =>
        drain callback { st with dispatched := st.dispatched ++ [line] } r
termination_by cs.length
decreasing_by all_goals exact splitFirstNl_length hsp

/-- One `os.read` reception: decoded bytes are appended to the buffer and all
complete lines are dispatched. -/
def handle_data (callback : String → Except PyError Unit) (st : ReaderState)
    (data : String) : ReaderState :=
  drain callback st (st.buffer ++ data.data)

theorem drain_fd_open (callback : String → Except PyError Unit)
    (st : ReaderState) (cs : List Char) :
    (drain callback st cs).fd_open = st.fd_open := by
  induction st, cs using drain.induct callback with
  | case1 st cs hsp =>
    rw [drain.eq_def]
    split <;> simp_all
  | case2 st cs l r hsp hb ih =>
    rw [drain.eq_def]
    split <;> simp_all
  | case3 st cs l r hsp hb a hcb ih =>
    rw [drain.eq_def]
    split <;> simp_all
  | case4 st cs l r hsp hb e hcb ih =>
    rw [drain.eq_def]
    split <;> simp_all

theorem drain_running (callback : String → Except PyError Unit)
    (st : ReaderState) (cs : List Char) :
    (drain callback st cs).running = st.running := by
  induction st, cs using drain.induct callback with
  | case1 st cs hsp =>
    rw [drain.eq_def]
    split <;> simp_all
  | case2 st cs l r hsp hb ih =>
    rw [drain.eq_def]
    split <;> simp_all
  | case3 st cs l r hsp hb a hcb ih =>
    rw [drain.eq_def]
    split <;> simp_all
  | case4 st cs l r hsp hb e hcb ih =>
    rw [drain.eq_def]
    split <;> simp_all

theorem drain_cb_eq (callback : String → Except PyError Unit)
    (st : ReaderState) (cs : List Char) :
    drain callback st cs = drain (fun _ => .ok ()) st cs := by
  induction st, cs using drain.induct callback with
  | case1 st cs hsp =>
    rw [drain.eq_def, drain.eq_def]
    split <;> simp_all
  | case2 st cs l r hsp hb ih =>
    rw [drain.eq_def, drain.eq_def]
    split <;> simp_all
  | case3 st cs l r hsp hb a hcb ih =>
    rw [drain.eq_def, drain.eq_def]
    split <;> simp_all
  | case4 st cs l r hsp hb e hcb ih =>
    rw [drain.eq_def, drain.eq_def]
    split <;> simp_all

/-- C9: a failing message handler is isolated from the read loop: whatever
the callback raises, draining the buffer leaves the descriptor open and the
loop running, and behaves exactly as with a callback that never fails (each
exception is swallowed and processing proceeds to the following lines); the
same holds for every subsequent reception. -/
theorem reader_callback_isolated (callback : String → Except PyError Unit)
    (st : ReaderState) (cs : List Char) (data : String) :
    (drain callback st cs).fd_open = st.fd_open ∧
    (drain callback st cs).running = st.running ∧
    drain callback st cs = drain (fun _ => .ok ()) st cs ∧
    handle_data callback st data = handle_data (fun _ => .ok ()) st data :=
  ⟨drain_fd_open callback st cs, drain_running callback st cs,
    drain_cb_eq callback st cs, drain_cb_eq callback st _⟩

/-! ### Suggestions panel data (suggestions_panel.py, ai_client.py) -/

/-- `ai_client.Suggestion`. -/
structure Suggestion where
  text : String
  confidence : ℚ
  description : String
deriving Repr, DecidableEq

/-- `ai_client.SectionContent`. -/
structure SectionContent where
  heading : String
  content : String
deriving Repr, DecidableEq

/-- `ai_client.WritingContext` (the filename field carries whatever JSON
value `context.json` supplied, as Python would). -/
structure WritingContext where
  full_document : String
  current_paragraph : String
  paragraph_before : String
  paragraph_after : String
  cursor_line : Int
  filename : Json
  document_type : String
  is_empty_line : Bool

/-- The external AI provider, opaque to the coordination layer: each call
either returns a value or raises (carrying `str(e)`). -/
structure Provider where
  generate_suggestions : WritingContext → Nat → Except String (List Suggestion)
  fill_section : String → Json → Json → Except String SectionContent

/-- The configuration field the panel reads. -/
structure Config where
  suggestion_count : Nat

/-- In-memory fields of `SuggestionsPanel`. -/
structure PanelState where
  filename : String
  suggestions : List Suggestion
  is_loading : Bool
  error_message : Option String
  current_paragraph_preview : String
  preview_index : Int
  mode : String
deriving Repr, DecidableEq

/-- Contents of `preview_state.json`. -/
structure PreviewState where
  index : Int
  count : Nat
  text : String
  mode : String
deriving Repr, DecidableEq

/-- The files under `~/.writer` that the panel touches.  Marker files are
their existence (`Bool`) or payload (`Option String`); `suggestion_<n>.txt`
is an overwrite log read through `readSuggestionFile`. -/
structure WriterDir where
  context_json : Option String
  request_suggestions : Bool
  request_fill_section : Option String
  preview_next : Bool
  preview_prev : Bool
  suggestion_files : List (Nat × String)
  preview_state : Option PreviewState
  suggestion_mode : Option String
  fill_result : Option String
deriving Repr, DecidableEq

/-- Overwrite `suggestion_<n>.txt`. -/
def writeSuggestionFile (fs : WriterDir) (n : Nat) (text : String) : WriterDir :=
  { fs with suggestion_files := (n, text) :: fs.suggestion_files }

/-- Read `suggestion_<n>.txt` (most recent write wins). -/
def readSuggestionFile (fs : WriterDir) (n : Nat) : Option String :=
  (fs.suggestion_files.find? (fun p => p.1 == n)).map (fun p => p.2)

/-- Python `lst[i]`: negative indices wrap once; out of range raises. -/
def pyIndex {α : Type} (l : List α) (i : Int) : Except PyError α :=
  if 0 ≤ i then
    match l.get? i.toNat with
    | some x => .ok x
    | none => .error .indexError
  else if 0 ≤ i + l.length then
    match l.get? (i + l.length).toNat with
    | some x => .ok x
    | none => .error .indexError
  else .error .indexError

/-- `_write_preview_state`: publish index, count, currently previewed text
and mode to `preview_state.json`, and the mode to `suggestion_mode.txt`. -/
def write_preview_state (st : PanelState) (fs : WriterDir) :
    Except PyError WriterDir :=
  if st.suggestions.isEmpty then
    .ok { fs with
      preview_state :=
        some ⟨st.preview_index, st.suggestions.length, "", st.mode⟩,
      suggestion_mode := some st.mode }
  else
    match pyIndex st.suggestions st.preview_index with
    | .ok s =>
      .ok { fs with
        preview_state :=
          some ⟨st.preview_index, st.suggestions.length, s.text, st.mode⟩,
        suggestion_mode := some st.mode }
    | .error e => .error e

/-- `_check_preview_commands`: consume the `preview_next` / `preview_prev`
markers; with a non-empty candidate list step the index cyclically (Python
`%` on ints is `Int.emod`) and republish the state file; with an empty list
the marker is still consumed but nothing else happens. -/
def check_preview_commands (st : PanelState) (fs : WriterDir) :
    Except PyError (PanelState × WriterDir) :=
  let step1 : Except PyError (PanelState × WriterDir) :=
    if fs.preview_next then
      let fs := { fs with preview_next := false }
      if st.suggestions.isEmpty then .ok (st, fs)
      else
        let st := { st with
          preview_index := (st.preview_index + 1) % (st.suggestions.length : Int) }
        match write_preview_state st fs with
        | .ok fs => .ok (st, fs)
        | .error e => .error e
    else .ok (st, fs)
  match step1 with
  | .error e => .error e
  | .ok (st, fs) =>
    if fs.preview_prev then
      let fs := { fs with preview_prev := false }
      if st.suggestions.isEmpty then .ok (st, fs)
      else
        let st := { st with
          preview_index := (st.preview_index - 1) % (st.suggestions.length : Int) }
        match write_preview_state st fs with
        | .ok fs => .ok (st, fs)
        | .error e => .error e
    else .ok (st, fs)

/-- Accumulator of the paragraph-splitting loop in `extract_paragraphs`. -/
structure ParaAcc where
  paragraphs : List String
  ranges : List (Int × Int)
  current_para : List String
  line_num : Int
  para_start : Int

/-- One iteration of the `for line in lines` loop of `extract_paragraphs`. -/
def paraStep (acc : ParaAcc) (line : String) : ParaAcc :=
  if pyBlank line then
    let acc :=
      if acc.current_para.isEmpty then acc
      else
        { acc with
          paragraphs :=
            acc.paragraphs ++ [String.intercalate "\n" acc.current_para],
          ranges := acc.ranges ++ [(acc.para_start, acc.line_num - 1)],
          current_para := [] }
    { acc with para_start := acc.line_num + 1, line_num := acc.line_num + 1 }
  else
    { acc with
      current_para := acc.current_para ++ [line],
      line_num := acc.line_num + 1 }

/-- `ai_client.extract_paragraphs`: split into blank-line-separated
paragraphs with line ranges, find the paragraph containing the cursor
(first match, else 0), and return (before, current, after). -/
def extract_paragraphs (lines : List String) (cursor_line : Int) :
    String × String × String :=
  let acc := lines.foldl paraStep ⟨[], [], [], 1, 1⟩
  let acc :=
    if acc.current_para.isEmpty then acc
    else
      { acc with
        paragraphs :=
          acc.paragraphs ++ [String.intercalate "\n" acc.current_para],
        ranges := acc.ranges ++ [(acc.para_start, acc.line_num - 1)] }
  let ci : Nat :=
    match acc.ranges.findIdx?
        (fun r => decide (r.1 ≤ cursor_line ∧ cursor_line ≤ r.2)) with
    | some i => i
    | none => 0
  let para_before :=
    match ci with
    | 0 => ""
    | Nat.succ m => acc.paragraphs.getD m ""
  let current_para := acc.paragraphs.getD ci ""
  let para_after := acc.paragraphs.getD (ci + 1) ""
  (para_before, current_para, para_after)

/-- `.strip()` on a loaded value: only strings have the attribute. -/
def asStr : Json → Except PyError String
  | .str s => .ok s
  | _ => .error .attributeError

/-- Ordered comparison against a loaded value: only ints compare. -/
def asInt : Json → Except PyError Int
  | .int n => .ok n
  | _ => .error .typeError

/-- Elements of `lines`: iterating calls `.strip()` on each. -/
def strListOf : List Json → Except PyError (List String)
  | [] => .ok []
  | .str s :: t =>
    match strListOf t with
    | .ok r => .ok (s :: r)
    | .error e => .error e
  | _ :: _ => .error .attributeError

/-- The `lines` value: anything but a list fails under iteration/join. -/
def asStrList : Json → Except PyError (List String)
  | .arr xs => strListOf xs
  | _ => .error .typeError

/-- The reads `_generate_suggestions` performs on the parsed `context.json`,
with the exception each malformed access raises in Python. -/
def readContext (raw : String) (fnameDefault : String) :
    Except PyError (List String × Int × String × Json) :=
  match loads raw with
  | none => .error .jsonDecodeError
  | some data =>
    match data with
    | .obj kvs =>
      match asStr (pyDictGet kvs "current" (.str "")) with
      | .error e => .error e
      | .ok current =>
        match asStrList (pyDictGet kvs "lines" (.arr [])) with
        | .error e => .error e
        | .ok lines =>
          match asInt (pyDictGet kvs "cursor_line" (.int 1)) with
          | .error e => .error e
          | .ok cursor =>
            .ok (lines, cursor, current,
              pyDictGet kvs "filename" (.str fnameDefault))
    | _ => .error .attributeError

/-- `for i, s in enumerate(self.suggestions, 1): write suggestion_i.txt`. -/
def write_suggestion_files (fs : WriterDir) : List Suggestion → Nat → WriterDir
  | [], _ => fs
  | s :: rest, i => write_suggestion_files (writeSuggestionFile fs i s.text) rest (i + 1)

/-- `_generate_suggestions`, as the function from the pre-state, the file
system, and the provider outcome to the post-state and file system.  The
candidate batch and preview index are cleared before any fallible step and
are not restored on failure; `error_message` receives `str(e)[:100]`. -/
def generate_suggestions (provider : Provider) (config : Config)
    (fs : WriterDir) (st0 : PanelState) : PanelState × WriterDir :=
  let st := { st0 with
    is_loading := true, error_message := none,
    suggestions := [], preview_index := 0 }
  match fs.context_json with
  | none =>
    ({ st with
       error_message := some "No context available",
       is_loading := false }, fs)
  | some raw =>
    match readContext raw st.filename with
    | .error e =>
      ({ st with
         error_message := some (e.message.take 100),
         is_loading := false }, fs)
    | .ok (lines, cursor, current, fname) =>
      let is_empty := pyBlank current
      let parts := extract_paragraphs lines cursor
      let st :=
        if is_empty || pyBlank parts.2.1 then
          { st with
            mode := "next_paragraph",
            current_paragraph_preview := parts.1 }
        else
          { st with
            mode := "alternatives",
            current_paragraph_preview := parts.2.1 }
      let ctx : WritingContext :=
        { full_document := String.intercalate "\n" lines,
          current_paragraph := parts.2.1,
          paragraph_before := parts.1,
          paragraph_after := parts.2.2,
          cursor_line := cursor,
          filename := fname,
          document_type := "markdown",
          is_empty_line := is_empty }
      match provider.generate_suggestions ctx config.suggestion_count with
      | .error msg =>
        ({ st with
           error_message := some (msg.take 100),
           is_loading := false }, fs)
      | .ok suggs =>
        let st := { st with suggestions := suggs }
        let fs := write_suggestion_files fs suggs 1
        match write_preview_state st fs with
        | .ok fs => ({ st with is_loading := false }, fs)
        | .error e =>
          ({ st with
             error_message := some (e.message.take 100),
             is_loading := false }, fs)

/-- Python truthiness of a loaded value (`if not section_heading`). -/
def pyTruthy : Json → Bool
  | .null => false
  | .bool b => b
  | .int n => n != 0
  | .str s => s != ""
  | .arr xs => !xs.isEmpty
  | .obj kvs => !kvs.isEmpty

/-- Python `str()` of a loaded value, as interpolated into f-strings; exact
for the scalar shapes, and the claims only exercise string headings. -/
def pyToStr : Json → String
  | .null => "None"
  | .bool true => "True"
  | .bool false => "False"
  | .int n => String.mk (intChars n)
  | .str s => s
  | .arr xs => dumps (.arr xs)
  | .obj kvs => dumps (.obj kvs)

/-- The document assembled by `_fill_section` from `context.json` (empty
when the file does not exist). -/
def read_document : Option String → Except PyError String
  | none => .ok ""
  | some raw =>
    match loads raw with
    | none => .error .jsonDecodeError
    | some data =>
      match data with
      | .obj kvs =>
        match asStrList (pyDictGet kvs "lines" (.arr [])) with
        | .ok lines => .ok (String.intercalate "\n" lines)
        | .error e => .error e
      | _ => .error .attributeError

/-- `_fill_section`: read and (only after a successful `json.loads`) delete
the fill-request marker, generate the section, store `fill_result.txt`,
install the single candidate and `suggestion_1.txt`.  The preview index is
not touched and no preview state is published. -/
def fill_section (provider : Provider) (fs : WriterDir) (st0 : PanelState) :
    PanelState × WriterDir :=
  let st := { st0 with is_loading := true, error_message := none }
  match fs.request_fill_section with
  | none => ({ st with is_loading := false }, fs)
  | some raw =>
    match loads raw with
    | none =>
      ({ st with
         error_message := some (PyError.jsonDecodeError.message.take 100),
         is_loading := false }, fs)
    | some data =>
      let fs := { fs with request_fill_section := none }
      match data with
      | .obj kvs =>
        let heading := pyDictGet kvs "heading" (.str "")
        let outline := pyDictGet kvs "outline" (.arr [])
        if pyTruthy heading = false then
          ({ st with
             error_message := some "No section heading provided",
             is_loading := false }, fs)
        else
          match read_document fs.context_json with
          | .error e =>
            ({ st with
               error_message := some (e.message.take 100),
               is_loading := false }, fs)
          | .ok document =>
            match provider.fill_section document heading outline with
            | .error msg =>
              ({ st with
                 error_message := some (msg.take 100),
                 is_loading := false }, fs)
            | .ok result =>
              let fs := { fs with fill_result := some result.content }
              let st := { st with
                suggestions := [⟨result.content, (9 : ℚ)/10,
                  "Content for: " ++ pyToStr heading⟩],
                current_paragraph_preview := "Section: " ++ pyToStr heading }
              let fs := writeSuggestionFile fs 1 result.content
              ({ st with is_loading := false }, fs)
      | _ =>
        ({ st with
           error_message := some (PyError.attributeError.message.take 100),
           is_loading := false }, fs)

/-- Result of one `run`-loop iteration: the updated files and in-memory
state, plus which worker tasks were launched this tick. -/
structure TickResult where
  fs : WriterDir
  st : PanelState
  launch_generate : Bool
  launch_fill : Bool
deriving Repr, DecidableEq

/-- One iteration of `run`: if the suggestions marker exists, delete it and
launch the generation task; if the fill marker exists, launch the fill task
(without deleting the marker — `_fill_section` deletes it itself); then
handle navigation synchronously.  Launched tasks execute asynchronously as
`generate_suggestions` / `fill_section`. -/
def run_tick (fs0 : WriterDir) (st0 : PanelState) : Except PyError TickResult :=
  let launch_generate := fs0.request_suggestions
  let fs1 :=
    if fs0.request_suggestions then { fs0 with request_suggestions := false }
    else fs0
  let launch_fill := fs1.request_fill_section.isSome
  match check_preview_commands st0 fs1 with
  | .ok (st1, fs2) => .ok ⟨fs2, st1, launch_generate, launch_fill⟩
  | .error e => .error e

/-! ### Navigation lemmas -/

theorem get_of_lt {α : Type} (l : List α) (k : Nat) (h : k < l.length) :
    ∃ x, l.get? k = some x := by
  cases hg : l.get? k with
  | none =>
    rw [List.get?_eq_none] at hg
    omega
  | some x => exact ⟨x, rfl⟩

theorem emod_nonneg_lt (i : Int) (n : Nat) (hn : n ≠ 0) :
    0 ≤ i % (n : Int) ∧ i % (n : Int) < (n : Int) := by
  constructor
  · exact Int.emod_nonneg i (by exact_mod_cast hn)
  · exact Int.emod_lt_of_pos i (by omega)

theorem write_preview_state_of_get (st : PanelState) (fs : WriterDir)
    (s : Suggestion) (hnn : 0 ≤ st.preview_index)
    (hget : st.suggestions.get? st.preview_index.toNat = some s) :
    write_preview_state st fs = .ok { fs with
      preview_state := some
        ⟨st.preview_index, st.suggestions.length, s.text, st.mode⟩,
      suggestion_mode := some st.mode } := by
  have hne : st.suggestions.isEmpty = false := by
    cases hc : st.suggestions with
    | nil =>
      rw [hc] at hget
      simp at hget
    | cons a t => simp [hc]
  unfold write_preview_state pyIndex
  rw [hget]
  simp [hne, hnn]

theorem write_preview_state_of_empty (st : PanelState) (fs : WriterDir)
    (h : st.suggestions = []) :
    write_preview_state st fs = .ok { fs with
      preview_state :=
        some ⟨st.preview_index, st.suggestions.length, "", st.mode⟩,
      suggestion_mode := some st.mode } := by
  unfold write_preview_state
  rw [if_pos (by simp [h])]

/-- `_check_preview_commands` with neither marker set: no change. -/
theorem cpc_none (st : PanelState) (fs : WriterDir)
    (hn : fs.preview_next = false) (hp : fs.preview_prev = false) :
    check_preview_commands st fs = .ok (st, fs) := by
  simp [check_preview_commands, hn, hp]

/-- `_check_preview_commands` with an empty candidate list: the markers are
consumed but the index is untouched, the state file not written, and nothing
is raised. -/
theorem cpc_empty (st : PanelState) (fs : WriterDir)
    (hs : st.suggestions = []) :
    check_preview_commands st fs
      = .ok (st, { fs with preview_next := false, preview_prev := false }) := by
  have he : st.suggestions.isEmpty = true := by rw [hs]; rfl
  obtain ⟨c1, c2, c3, pn, pp, c6, c7, c8, c9⟩ := fs
  cases pn <;> cases pp <;> simp [check_preview_commands, he]

/-- `write_preview_state` touches only the two published files. -/
theorem wps_preserves (st : PanelState) (fs fs2 : WriterDir)
    (h : write_preview_state st fs = .ok fs2) :
    fs2.preview_next = fs.preview_next ∧ fs2.preview_prev = fs.preview_prev ∧
    fs2.request_suggestions = fs.request_suggestions ∧
    fs2.request_fill_section = fs.request_fill_section ∧
    fs2.context_json = fs.context_json ∧
    fs2.suggestion_files = fs.suggestion_files ∧
    fs2.fill_result = fs.fill_result ∧
    fs2.suggestion_mode = some st.mode := by
  unfold write_preview_state at h
  split at h
  · simp only [Except.ok.injEq] at h
    subst h
    simp
  · split at h
    · simp only [Except.ok.injEq] at h
      subst h
      simp
    · exact absurd h (by simp)

/-- `_check_preview_commands` with only the `next` marker and candidates:
cyclic advance plus a republished state file. -/
theorem cpc_next (st : PanelState) (fs : WriterDir) (s : Suggestion)
    (hn : fs.preview_next = true) (hp : fs.preview_prev = false)
    (hs : st.suggestions ≠ [])
    (hget : st.suggestions.get?
      (((st.preview_index + 1) % (st.suggestions.length : Int)).toNat)
        = some s) :
    check_preview_commands st fs = .ok
      ({ st with preview_index :=
          (st.preview_index + 1) % (st.suggestions.length : Int) },
       { fs with
         preview_next := false,
         preview_state := some
           ⟨(st.preview_index + 1) % (st.suggestions.length : Int),
            st.suggestions.length, s.text, st.mode⟩,
         suggestion_mode := some st.mode }) := by
  have he : st.suggestions.isEmpty = false := by
    cases hc : st.suggestions with
    | nil => exact absurd hc hs
    | cons a t => simp [hc]
  have hb := emod_nonneg_lt (st.preview_index + 1) st.suggestions.length
    (fun h0 => hs (List.length_eq_zero.mp h0))
  have hwps := write_preview_state_of_get
    { st with preview_index :=
        (st.preview_index + 1) % (st.suggestions.length : Int) }
    { fs with preview_next := false } s (by simpa using hb.1)
    (by simpa using hget)
  simp only [hp] at hwps
  simp [check_preview_commands, hn, hp, he, hwps]

/-- `_check_preview_commands` with only the `prev` marker and candidates:
cyclic retreat plus a republished state file. -/
theorem cpc_prev (st : PanelState) (fs : WriterDir) (s : Suggestion)
    (hn : fs.preview_next = false) (hp : fs.preview_prev = true)
    (hs : st.suggestions ≠ [])
    (hget : st.suggestions.get?
      (((st.preview_index - 1) % (st.suggestions.length : Int)).toNat)
        = some s) :
    check_preview_commands st fs = .ok
      ({ st with preview_index :=
          (st.preview_index - 1) % (st.suggestions.length : Int) },
       { fs with
         preview_prev := false,
         preview_state := some
           ⟨(st.preview_index - 1) % (st.suggestions.length : Int),
            st.suggestions.length, s.text, st.mode⟩,
         suggestion_mode := some st.mode }) := by
  have he : st.suggestions.isEmpty = false := by
    cases hc : st.suggestions with
    | nil => exact absurd hc hs
    | cons a t => simp [hc]
  have hwps := write_preview_state_of_get
    { st with preview_index :=
        (st.preview_index - 1) % (st.suggestions.length : Int) }
    { fs with preview_prev := false } s
    (by
      simpa using (emod_nonneg_lt (st.preview_index - 1) st.suggestions.length
        (fun h0 => hs (List.length_eq_zero.mp h0))).1)
    (by simpa using hget)
  simp only [hn] at hwps
  simp [check_preview_commands, hn, hp, he, hwps]

/-- `_check_preview_commands` with both markers and candidates: advance,
then retreat from the advanced index, republishing after each. -/
theorem cpc_both (st : PanelState) (fs : WriterDir) (s : Suggestion)
    (hn : fs.preview_next = true) (hp : fs.preview_prev = true)
    (hs : st.suggestions ≠ [])
    (hget : st.suggestions.get?
      ((((st.preview_index + 1) % (st.suggestions.length : Int) - 1)
        % (st.suggestions.length : Int)).toNat) = some s)
    (s1 : Suggestion)
    (hget1 : st.suggestions.get?
      (((st.preview_index + 1) % (st.suggestions.length : Int)).toNat)
        = some s1) :
    check_preview_commands st fs = .ok
      ({ st with preview_index :=
          ((st.preview_index + 1) % (st.suggestions.length : Int) - 1)
            % (st.suggestions.length : Int) },
       { fs with
         preview_next := false, preview_prev := false,
         preview_state := some
           ⟨((st.preview_index + 1) % (st.suggestions.length : Int) - 1)
              % (st.suggestions.length : Int),
            st.suggestions.length, s.text, st.mode⟩,
         suggestion_mode := some st.mode }) := by
  have he : st.suggestions.isEmpty = false := by
    cases hc : st.suggestions with
    | nil => exact absurd hc hs
    | cons a t => simp [hc]
  have hb := emod_nonneg_lt (st.preview_index + 1) st.suggestions.length
    (fun h0 => hs (List.length_eq_zero.mp h0))
  have hwps1 := write_preview_state_of_get
    { st with preview_index :=
        (st.preview_index + 1) % (st.suggestions.length : Int) }
    { fs with preview_next := false } s1 (by simpa using hb.1)
    (by simpa using hget1)
  have hwps2 := write_preview_state_of_get
    { st with preview_index :=
        ((st.preview_index + 1) % (st.suggestions.length : Int) - 1)
          % (st.suggestions.length : Int) }
    { fs with
      preview_next := false, preview_prev := false,
      preview_state := some
        ⟨(st.preview_index + 1) % (st.suggestions.length : Int),
         st.suggestions.length, s1.text, st.mode⟩,
      suggestion_mode := some st.mode } s
    (by
      simpa using (emod_nonneg_lt
        ((st.preview_index + 1) % (st.suggestions.length : Int) - 1)
        st.suggestions.length (fun h0 => hs (List.length_eq_zero.mp h0))).1)
    (by simpa using hget)
  simp only [hp] at hwps1
  simp [check_preview_commands, hn, hp, he, hwps1, hwps2]

/-! ### File and tick characterizations -/

theorem read_write_suggestion (fs : WriterDir) (n m : Nat) (t : String) :
    readSuggestionFile (writeSuggestionFile fs m t) n
      = if m = n then some t else readSuggestionFile fs n := by
  unfold readSuggestionFile writeSuggestionFile
  by_cases h : m = n
  · simp [List.find?_cons, h]
  · simp only [List.find?_cons]
    rw [show ((m == n) = false) from by simpa using h]
    simp [h]

theorem wsf_untouched (rest : List Suggestion) : ∀ (fs : WriterDir) (j n : Nat),
    n < j → readSuggestionFile (write_suggestion_files fs rest j) n
      = readSuggestionFile fs n := by
  induction rest with
  | nil => intro fs j n _; rfl
  | cons s t ih =>
    intro fs j n h
    show readSuggestionFile
      (write_suggestion_files (writeSuggestionFile fs j s.text) t (j + 1)) n = _
    rw [ih _ _ _ (by omega), read_write_suggestion]
    rw [if_neg (by omega)]

theorem wsf_lookup (suggs : List Suggestion) : ∀ (fs : WriterDir) (i k : Nat),
    k < suggs.length →
    readSuggestionFile (write_suggestion_files fs suggs i) (i + k)
      = (suggs.get? k).map Suggestion.text := by
  induction suggs with
  | nil =>
    intro fs i k h
    simp at h
  | cons s rest ih =>
    intro fs i k h
    cases k with
    | zero =>
      show readSuggestionFile
        (write_suggestion_files (writeSuggestionFile fs i s.text) rest (i + 1))
          (i + 0) = _
      rw [wsf_untouched rest _ _ _ (by omega), read_write_suggestion,
        if_pos (by omega)]
      rfl
    | succ k2 =>
      have hik : i + (k2 + 1) = (i + 1) + k2 := by omega
      show readSuggestionFile
        (write_suggestion_files (writeSuggestionFile fs i s.text) rest (i + 1))
          (i + (k2 + 1)) = _
      rw [hik, ih _ _ _ (by simpa using h)]
      rfl

theorem wsf_fields (suggs : List Suggestion) : ∀ (fs : WriterDir) (i : Nat),
    (write_suggestion_files fs suggs i).preview_state = fs.preview_state ∧
    (write_suggestion_files fs suggs i).suggestion_mode = fs.suggestion_mode ∧
    (write_suggestion_files fs suggs i).request_suggestions
      = fs.request_suggestions ∧
    (write_suggestion_files fs suggs i).request_fill_section
      = fs.request_fill_section ∧
    (write_suggestion_files fs suggs i).context_json = fs.context_json := by
  induction suggs with
  | nil => intro fs i; exact ⟨rfl, rfl, rfl, rfl, rfl⟩
  | cons s rest ih =>
    intro fs i
    exact ih (writeSuggestionFile fs i s.text) (i + 1)

/-- Full characterization of `_check_preview_commands` outcomes: preserved
fields, plus the cyclic index bound whenever a navigation marker fired on a
non-empty candidate list. -/
theorem cpc_spec (st : PanelState) (fs : WriterDir) (st2 : PanelState)
    (fs2 : WriterDir) (h : check_preview_commands st fs = .ok (st2, fs2)) :
    st2.filename = st.filename ∧ st2.suggestions = st.suggestions ∧
    fs2.request_suggestions = fs.request_suggestions ∧
    fs2.request_fill_section = fs.request_fill_section ∧
    fs2.context_json = fs.context_json ∧
    fs2.suggestion_files = fs.suggestion_files ∧
    (st.suggestions ≠ [] → (fs.preview_next = true ∨ fs.preview_prev = true) →
      0 ≤ st2.preview_index ∧
        st2.preview_index < (st.suggestions.length : Int)) := by
  by_cases hsugg : st.suggestions = []
  · rw [cpc_empty st fs hsugg] at h
    simp only [Except.ok.injEq, Prod.mk.injEq] at h
    obtain ⟨h1, h2⟩ := h
    subst h1
    subst h2
    simp_all
  · have hlen : st.suggestions.length ≠ 0 :=
      fun h0 => hsugg (List.length_eq_zero.mp h0)
    cases hn : fs.preview_next with
    | false =>
      cases hp : fs.preview_prev with
      | false =>
        rw [cpc_none st fs hn hp] at h
        simp only [Except.ok.injEq, Prod.mk.injEq] at h
        obtain ⟨h1, h2⟩ := h
        subst h1
        subst h2
        simp_all
      | true =>
        have hb := emod_nonneg_lt (st.preview_index - 1) st.suggestions.length hlen
        obtain ⟨x, hx⟩ := get_of_lt st.suggestions
          ((st.preview_index - 1) % (st.suggestions.length : Int)).toNat
          (by omega)
        rw [cpc_prev st fs x hn hp hsugg hx] at h
        simp only [Except.ok.injEq, Prod.mk.injEq] at h
        obtain ⟨h1, h2⟩ := h
        subst h1
        subst h2
        refine ⟨rfl, rfl, rfl, rfl, rfl, rfl, fun _ _ => ?_⟩
        simpa using hb
    | true =>
      cases hp : fs.preview_prev with
      | false =>
        have hb := emod_nonneg_lt (st.preview_index + 1) st.suggestions.length hlen
        obtain ⟨x, hx⟩ := get_of_lt st.suggestions
          ((st.preview_index + 1) % (st.suggestions.length : Int)).toNat
          (by omega)
        rw [cpc_next st fs x hn hp hsugg hx] at h
        simp only [Except.ok.injEq, Prod.mk.injEq] at h
        obtain ⟨h1, h2⟩ := h
        subst h1
        subst h2
        refine ⟨rfl, rfl, rfl, rfl, rfl, rfl, fun _ _ => ?_⟩
        simpa using hb
      | true =>
        have hb1 := emod_nonneg_lt (st.preview_index + 1) st.suggestions.length hlen
        have hb := emod_nonneg_lt
          ((st.preview_index + 1) % (st.suggestions.length : Int) - 1)
          st.suggestions.length hlen
        obtain ⟨x1, hx1⟩ := get_of_lt st.suggestions
          (((st.preview_index + 1) % (st.suggestions.length : Int)).toNat)
          (by omega)
        obtain ⟨x, hx⟩ := get_of_lt st.suggestions
          ((((st.preview_index + 1) % (st.suggestions.length : Int) - 1)
            % (st.suggestions.length : Int)).toNat)
          (by omega)
        rw [cpc_both st fs x hn hp hsugg hx x1 hx1] at h
        simp only [Except.ok.injEq, Prod.mk.injEq] at h
        obtain ⟨h1, h2⟩ := h
        subst h1
        subst h2
        refine ⟨rfl, rfl, rfl, rfl, rfl, rfl, fun _ _ => ?_⟩
        simpa using hb

/-- What one tick of `run` does to the marker files. -/
theorem run_tick_spec (fs : WriterDir) (st : PanelState) (r : TickResult)
    (h : run_tick fs st = .ok r) :
    r.launch_generate = fs.request_suggestions ∧
    r.launch_fill = fs.request_fill_section.isSome ∧
    r.fs.request_suggestions = false ∧
    r.fs.request_fill_section = fs.request_fill_section ∧
    r.fs.context_json = fs.context_json ∧
    r.st.filename = st.filename := by
  unfold run_tick at h
  cases hm : fs.request_suggestions with
  | false =>
    rw [hm] at h
    simp only [Bool.false_eq_true, if_false] at h
    cases hc : check_preview_commands st fs with
    | error e =>
      rw [hc] at h
      exact absurd h (by simp)
    | ok p =>
      obtain ⟨st1, fs2⟩ := p
      rw [hc] at h
      simp only [Except.ok.injEq] at h
      subst h
      have hs := cpc_spec st fs st1 fs2 hc
      exact ⟨by simp [hm], by simp [hs.2.2.2.1], by simp [hs.2.2.1, hm],
        by simp [hs.2.2.2.1], by simp [hs.2.2.2.2.1], hs.1⟩
  | true =>
    rw [hm] at h
    simp only [if_true] at h
    cases hc : check_preview_commands st { fs with request_suggestions := false } with
    | error e =>
      rw [hc] at h
      exact absurd h (by simp)
    | ok p =>
      obtain ⟨st1, fs2⟩ := p
      rw [hc] at h
      simp only [Except.ok.injEq] at h
      subst h
      have hs := cpc_spec st { fs with request_suggestions := false } st1 fs2 hc
      exact ⟨by simp [hm], by simp [hs.2.2.2.1], by simp [hs.2.2.1],
        by simp [hs.2.2.2.1], by simp [hs.2.2.2.2.1], hs.1⟩

/-- `_write_preview_state` from a state whose index is 0 always succeeds
and publishes index 0 with the first candidate text (or `""`). -/
theorem wps_zero_index (st : PanelState) (fs : WriterDir)
    (h0 : st.preview_index = 0) :
    write_preview_state st fs = .ok { fs with
      preview_state := some ⟨0, st.suggestions.length,
        ((st.suggestions.get? 0).map Suggestion.text).getD "", st.mode⟩,
      suggestion_mode := some st.mode } := by
  cases hs : st.suggestions with
  | nil =>
    rw [write_preview_state_of_empty st fs hs, h0, hs]
    rfl
  | cons a t =>
    have hget : st.suggestions.get? st.preview_index.toNat = some a := by
      rw [h0, hs]
      rfl
    rw [write_preview_state_of_get st fs a (by rw [h0]) hget, h0, hs]
    rfl

/-- Successful generation: candidates installed, index reset to 0, one
`suggestion_<n>.txt` per candidate, and the preview state republished with
index 0 and a matching count, text and mode. -/
theorem generate_suggestions_ok (provider : Provider) (config : Config)
    (fs : WriterDir) (st0 : PanelState) (raw : String)
    (lines : List String) (cursor : Int) (current : String) (fname : Json)
    (suggs : List Suggestion)
    (hctx : fs.context_json = some raw)
    (hread : readContext raw st0.filename = .ok (lines, cursor, current, fname))
    (hprov : ∀ ctx n, provider.generate_suggestions ctx n = .ok suggs) :
    (generate_suggestions provider config fs st0).1.suggestions = suggs ∧
    (generate_suggestions provider config fs st0).1.preview_index = 0 ∧
    (generate_suggestions provider config fs st0).1.is_loading = false ∧
    (generate_suggestions provider config fs st0).1.error_message = none ∧
    (generate_suggestions provider config fs st0).2.preview_state
      = some ⟨0, suggs.length, ((suggs.get? 0).map Suggestion.text).getD "",
          (generate_suggestions provider config fs st0).1.mode⟩ ∧
    (generate_suggestions provider config fs st0).2.suggestion_mode
      = some (generate_suggestions provider config fs st0).1.mode ∧
    (generate_suggestions provider config fs st0).2.request_suggestions
      = fs.request_suggestions ∧
    (generate_suggestions provider config fs st0).2.request_fill_section
      = fs.request_fill_section ∧
    (∀ k, k < suggs.length →
      readSuggestionFile (generate_suggestions provider config fs st0).2 (k + 1)
        = (suggs.get? k).map Suggestion.text) := by
  simp only [generate_suggestions, hctx, hread, hprov]
  by_cases hmode :
      (pyBlank current || pyBlank (extract_paragraphs lines cursor).2.1) = true
  · rw [if_pos hmode]
    rw [wps_zero_index _ _ rfl]
    refine ⟨rfl, rfl, rfl, rfl, rfl, rfl, ?_, ?_, ?_⟩
    · exact (wsf_fields suggs fs 1).2.2.1
    · exact (wsf_fields suggs fs 1).2.2.2.1
    · intro k hk
      have h := wsf_lookup suggs fs 1 k hk
      rw [Nat.add_comm 1 k] at h
      exact h
  · rw [if_neg hmode]
    rw [wps_zero_index _ _ rfl]
    refine ⟨rfl, rfl, rfl, rfl, rfl, rfl, ?_, ?_, ?_⟩
    · exact (wsf_fields suggs fs 1).2.2.1
    · exact (wsf_fields suggs fs 1).2.2.2.1
    · intro k hk
      have h := wsf_lookup suggs fs 1 k hk
      rw [Nat.add_comm 1 k] at h
      exact h

/-- Generation without a context file: error recorded, batch empty. -/
theorem generate_suggestions_no_context (provider : Provider) (config : Config)
    (fs : WriterDir) (st0 : PanelState) (h : fs.context_json = none) :
    (generate_suggestions provider config fs st0).1.suggestions = [] ∧
    (generate_suggestions provider config fs st0).1.preview_index = 0 ∧
    (generate_suggestions provider config fs st0).1.error_message
      = some "No context available" ∧
    (generate_suggestions provider config fs st0).1.is_loading = false := by
  simp [generate_suggestions, h]

/-- Generation with an unreadable or ill-typed context: the exception text is
recorded, the batch stays empty. -/
theorem generate_suggestions_bad_context (provider : Provider) (config : Config)
    (fs : WriterDir) (st0 : PanelState) (raw : String) (e : PyError)
    (hctx : fs.context_json = some raw)
    (hread : readContext raw st0.filename = .error e) :
    (generate_suggestions provider config fs st0).1.suggestions = [] ∧
    (generate_suggestions provider config fs st0).1.preview_index = 0 ∧
    (generate_suggestions provider config fs st0).1.error_message
      = some (e.message.take 100) ∧
    (generate_suggestions provider config fs st0).1.is_loading = false := by
  simp [generate_suggestions, hctx, hread]

/-- Generation whose provider call raises: the exception text is recorded,
the previously cleared batch is not restored. -/
theorem generate_suggestions_provider_error (provider : Provider)
    (config : Config) (fs : WriterDir) (st0 : PanelState) (raw : String)
    (lines : List String) (cursor : Int) (current : String) (fname : Json)
    (msg : String)
    (hctx : fs.context_json = some raw)
    (hread : readContext raw st0.filename = .ok (lines, cursor, current, fname))
    (hprov : ∀ ctx n, provider.generate_suggestions ctx n = .error msg) :
    (generate_suggestions provider config fs st0).1.suggestions = [] ∧
    (generate_suggestions provider config fs st0).1.preview_index = 0 ∧
    (generate_suggestions provider config fs st0).1.error_message
      = some (msg.take 100) ∧
    (generate_suggestions provider config fs st0).1.is_loading = false := by
  simp only [generate_suggestions, hctx, hread, hprov]
  by_cases hmode :
      (pyBlank current || pyBlank (extract_paragraphs lines cursor).2.1) = true
  · rw [if_pos hmode]
    simp
  · rw [if_neg hmode]
    simp

/-- `_fill_section` never touches the preview index, the mode, or the
published preview state. -/
theorem fill_section_preserves_preview (provider : Provider) (fs : WriterDir)
    (st0 : PanelState) :
    (fill_section provider fs st0).1.preview_index = st0.preview_index ∧
    (fill_section provider fs st0).1.mode = st0.mode ∧
    (fill_section provider fs st0).2.preview_state = fs.preview_state := by
  unfold fill_section
  dsimp only
  repeat' split
  all_goals exact ⟨rfl, rfl, rfl⟩

/-- `_fill_section` deletes the fill marker as soon as its payload parses. -/
theorem fill_section_consumes_marker (provider : Provider) (fs : WriterDir)
    (st0 : PanelState) (raw : String) (d : Json)
    (hm : fs.request_fill_section = some raw) (hl : loads raw = some d) :
    (fill_section provider fs st0).2.request_fill_section = none := by
  simp only [fill_section, hm, hl]
  repeat' split
  all_goals rfl

/-! ### Concrete fixtures for witnesses and counterexamples -/

/-- A provider returning one fixed candidate and one fixed section. -/
def witProvider : Provider :=
  ⟨fun _ _ => .ok [⟨"alpha", (1 : ℚ)/2, "first"⟩],
   fun _ _ _ => .ok ⟨"Intro", "body text"⟩⟩

/-- A provider whose generation call always raises. -/
def errProvider : Provider :=
  ⟨fun _ _ => .error "boom", fun _ _ _ => .error "boom"⟩

/-- The scenario context snapshot: three lines, cursor on line 2. -/
def witContext : String :=
  "\x7b\"lines\": [\"one\", \"\", \"two\"], \"cursor_line\": 2, \"current\": \"\"\x7d"

/-- A directory with the generation-request marker set. -/
def witFs : WriterDir :=
  ⟨some witContext, true, none, false, false, [], none, none, none⟩

/-- A quiescent panel. -/
def witSt : PanelState :=
  ⟨"draft.md", [], false, none, "", 0, "alternatives"⟩

/-- Three candidates, previewing the third. -/
def staleSt : PanelState :=
  ⟨"draft.md",
   [⟨"a", (1 : ℚ)/2, "x"⟩, ⟨"b", (1 : ℚ)/2, "y"⟩, ⟨"c", (1 : ℚ)/2, "z"⟩],
   false, none, "", 2, "alternatives"⟩

/-- Three candidates, previewing the first. -/
def navSt : PanelState :=
  ⟨"draft.md",
   [⟨"a", (1 : ℚ)/2, "x"⟩, ⟨"b", (1 : ℚ)/2, "y"⟩, ⟨"c", (1 : ℚ)/2, "z"⟩],
   false, none, "", 0, "alternatives"⟩

/-- A directory whose only marker is `preview_next`. -/
def navFs : WriterDir :=
  ⟨none, false, none, true, false, [], none, none, none⟩

/-- A directory whose only marker is `preview_prev`. -/
def navPrevFs : WriterDir :=
  ⟨none, false, none, false, true, [], none, none, none⟩

/-- A directory carrying a fill request and the matching stale state file. -/
def fillFs : WriterDir :=
  ⟨none, false, some "\x7b\"heading\": \"Intro\"\x7d", false, false, [],
   some ⟨2, 3, "c", "alternatives"⟩, none, none⟩

/-- The tick outcome on a directory whose only marker is a fill request. -/
def fillTick : TickResult :=
  ⟨⟨none, false, some "\x7b\"heading\": \"Intro\"\x7d", false, false, [], none,
    none, none⟩, witSt, false, true⟩

/-! ### Claims about the suggestions panel -/

/-- C3: when the `request_suggestions` marker exists at a tick, the loop
consumes and deletes it exactly once for that detection — it is gone from
the resulting directory and a second tick launches nothing — and a launched
generation whose provider returns candidates writes `suggestion_<n>.txt`
for each candidate n = 1..count and leaves `preview_state.json` with
index 0. -/
theorem generation_request_lifecycle (provider : Provider) (config : Config)
    (fs : WriterDir) (st : PanelState) (r : TickResult)
    (suggs : List Suggestion)
    (hmark : fs.request_suggestions = true)
    (htick : run_tick fs st = .ok r)
    (hprov : ∀ ctx n, provider.generate_suggestions ctx n = .ok suggs) :
    r.launch_generate = true ∧
    r.fs.request_suggestions = false ∧
    (∀ r2, run_tick r.fs r.st = .ok r2 → r2.launch_generate = false) ∧
    (∀ (st1 : PanelState) (raw : String) (lines : List String) (cursor : Int)
        (current : String) (fname : Json),
      r.fs.context_json = some raw →
      readContext raw st1.filename = .ok (lines, cursor, current, fname) →
      (∀ k, k < suggs.length →
        readSuggestionFile (generate_suggestions provider config r.fs st1).2
          (k + 1) = (suggs.get? k).map Suggestion.text) ∧
      ∃ ps : PreviewState,
        (generate_suggestions provider config r.fs st1).2.preview_state
          = some ps ∧ ps.index = 0) := by
  obtain ⟨h1, h2, h3, h4, h5, h6⟩ := run_tick_spec fs st r htick
  refine ⟨by rw [h1, hmark], h3, ?_, ?_⟩
  · intro r2 h2t
    have := (run_tick_spec r.fs r.st r2 h2t).1
    rw [this, h3]
  · intro st1 raw lines cursor current fname hctx hread
    obtain ⟨g1, g2, g3, g4, g5, g6, g7, g8, g9⟩ :=
      generate_suggestions_ok provider config r.fs st1 raw lines cursor
        current fname suggs hctx hread hprov
    exact ⟨g9, ⟨_, g5, rfl⟩⟩

theorem generation_request_lifecycle_witness :
    readSuggestionFile
      (generate_suggestions witProvider ⟨3⟩
        { witFs with request_suggestions := false } witSt).2 (0 + 1)
      = (([⟨"alpha", (1 : ℚ)/2, "first"⟩] : List Suggestion).get? 0).map
          Suggestion.text ∧
    ∃ ps : PreviewState,
      (generate_suggestions witProvider ⟨3⟩
        { witFs with request_suggestions := false } witSt).2.preview_state
        = some ps ∧ ps.index = 0 := by
  have h := generation_request_lifecycle witProvider ⟨3⟩ witFs witSt
    ⟨{ witFs with request_suggestions := false }, witSt, true, false⟩
    [⟨"alpha", (1 : ℚ)/2, "first"⟩] rfl rfl (fun _ _ => rfl)
  have h5 := h.2.2.2 witSt witContext ["one", "", "two"] 2 "" (.str "draft.md")
    rfl rfl
  exact ⟨h5.1 0 (by simp), h5.2⟩

/-- C4 counterexample: a fill-section completion installs one candidate but
leaves a stale preview index 2, which is not in `[0, 1)` — the claimed
bound fails after the fill-section operation. -/
theorem preview_index_out_of_bounds_after_fill :
    (fill_section witProvider fillFs staleSt).1.suggestions.length = 1 ∧
    (fill_section witProvider fillFs staleSt).1.preview_index = 2 ∧
    ¬((fill_section witProvider fillFs staleSt).1.preview_index
      < ((fill_section witProvider fillFs staleSt).1.suggestions.length : Int)) := by
  refine ⟨rfl, rfl, ?_⟩
  rw [show (fill_section witProvider fillFs staleSt).1.preview_index
      = (2 : Int) from rfl,
    show (fill_section witProvider fillFs staleSt).1.suggestions.length
      = 1 from rfl]
  decide

/-- C4 amended: a fresh generation always resets the preview index to 0;
advance/retreat on a positive candidate count leave the index in
`[0, count)`; the fill-section path does not touch the index at all, so a
stale index may lie outside `[0, count)` of the new single-candidate
batch. -/
theorem preview_index_bounds :
    (∀ (provider : Provider) (config : Config) (fs : WriterDir)
        (st : PanelState),
      (generate_suggestions provider config fs st).1.preview_index = 0) ∧
    (∀ (st st2 : PanelState) (fs fs2 : WriterDir),
      check_preview_commands st fs = .ok (st2, fs2) →
      st.suggestions ≠ [] →
      (fs.preview_next = true ∨ fs.preview_prev = true) →
      0 ≤ st2.preview_index ∧
        st2.preview_index < (st.suggestions.length : Int)) ∧
    (∀ (provider : Provider) (fs : WriterDir) (st : PanelState),
      (fill_section provider fs st).1.preview_index = st.preview_index) := by
  refine ⟨?_, ?_, ?_⟩
  · intro provider config fs st
    simp only [generate_suggestions]
    repeat' split
    all_goals rfl
  · intro st st2 fs fs2 h hs hm
    exact (cpc_spec st fs st2 fs2 h).2.2.2.2.2.2 hs hm
  · intro provider fs st
    exact (fill_section_preserves_preview provider fs st).1

theorem preview_index_bounds_witness :
    (generate_suggestions errProvider ⟨3⟩ witFs witSt).1.preview_index = 0 ∧
    (0 ≤ ({ navSt with preview_index :=
        (navSt.preview_index + 1) % (navSt.suggestions.length : Int) }
          : PanelState).preview_index ∧
      ({ navSt with preview_index :=
        (navSt.preview_index + 1) % (navSt.suggestions.length : Int) }
          : PanelState).preview_index < (navSt.suggestions.length : Int)) ∧
    (fill_section witProvider fillFs staleSt).1.preview_index
      = staleSt.preview_index := by
  refine ⟨preview_index_bounds.1 errProvider ⟨3⟩ witFs witSt, ?_,
    preview_index_bounds.2.2 witProvider fillFs staleSt⟩
  exact preview_index_bounds.2.1 navSt _ navFs _
    (cpc_next navSt navFs ⟨"b", (1 : ℚ)/2, "y"⟩ rfl rfl (by simp [navSt]) rfl)
    (by simp [navSt]) (Or.inl rfl)

/-- C5 counterexample: a fill-section completion installs a one-candidate
batch but leaves the previously published `preview_state.json` untouched,
so the file's count (3) no longer matches the in-memory count (1): the
fill transition does not re-publish the state file. -/
theorem preview_state_stale_after_fill :
    (fill_section witProvider fillFs staleSt).2.preview_state
      = some ⟨2, 3, "c", "alternatives"⟩ ∧
    (fill_section witProvider fillFs staleSt).1.suggestions.length = 1 ∧
    (3 : Nat) ≠ 1 :=
  ⟨rfl, rfl, by decide⟩

/-- C5 amended: advance and retreat (on a non-empty batch) and a successful
fresh generation re-publish `preview_state.json` so that its index, count,
text and mode match the in-memory state after the transition; the
fill-section path, however, leaves the previously published file in place
unchanged. -/
theorem preview_state_republished (st : PanelState) (fs : WriterDir) :
    (fs.preview_next = true → fs.preview_prev = false → st.suggestions ≠ [] →
      ∃ (st2 : PanelState) (fs2 : WriterDir) (s : Suggestion),
        check_preview_commands st fs = .ok (st2, fs2) ∧
        st2.suggestions.get? st2.preview_index.toNat = some s ∧
        fs2.preview_state = some ⟨st2.preview_index,
          st2.suggestions.length, s.text, st2.mode⟩ ∧
        fs2.suggestion_mode = some st2.mode) ∧
    (fs.preview_next = false → fs.preview_prev = true → st.suggestions ≠ [] →
      ∃ (st2 : PanelState) (fs2 : WriterDir) (s : Suggestion),
        check_preview_commands st fs = .ok (st2, fs2) ∧
        st2.suggestions.get? st2.preview_index.toNat = some s ∧
        fs2.preview_state = some ⟨st2.preview_index,
          st2.suggestions.length, s.text, st2.mode⟩ ∧
        fs2.suggestion_mode = some st2.mode) ∧
    (∀ (provider : Provider) (config : Config) (fs0 : WriterDir)
        (st0 : PanelState) (raw : String) (lines : List String) (cursor : Int)
        (current : String) (fname : Json) (suggs : List Suggestion),
      fs0.context_json = some raw →
      readContext raw st0.filename = .ok (lines, cursor, current, fname) →
      (∀ ctx n, provider.generate_suggestions ctx n = .ok suggs) →
      (generate_suggestions provider config fs0 st0).2.preview_state
        = some ⟨0, suggs.length, ((suggs.get? 0).map Suggestion.text).getD "",
            (generate_suggestions provider config fs0 st0).1.mode⟩ ∧
      (generate_suggestions provider config fs0 st0).2.suggestion_mode
        = some (generate_suggestions provider config fs0 st0).1.mode) ∧
    (∀ (provider : Provider) (fs0 : WriterDir) (st0 : PanelState),
      (fill_section provider fs0 st0).2.preview_state = fs0.preview_state) := by
  refine ⟨?_, ?_, ?_, ?_⟩
  · intro hn hp hs
    have hlen : st.suggestions.length ≠ 0 :=
      fun h0 => hs (List.length_eq_zero.mp h0)
    have hb := emod_nonneg_lt (st.preview_index + 1) st.suggestions.length hlen
    obtain ⟨x, hx⟩ := get_of_lt st.suggestions
      ((st.preview_index + 1) % (st.suggestions.length : Int)).toNat (by omega)
    exact ⟨_, _, x, cpc_next st fs x hn hp hs hx, hx, rfl, rfl⟩
  · intro hn hp hs
    have hlen : st.suggestions.length ≠ 0 :=
      fun h0 => hs (List.length_eq_zero.mp h0)
    have hb := emod_nonneg_lt (st.preview_index - 1) st.suggestions.length hlen
    obtain ⟨x, hx⟩ := get_of_lt st.suggestions
      ((st.preview_index - 1) % (st.suggestions.length : Int)).toNat (by omega)
    exact ⟨_, _, x, cpc_prev st fs x hn hp hs hx, hx, rfl, rfl⟩
  · intro provider config fs0 st0 raw lines cursor current fname suggs
      hctx hread hprov
    obtain ⟨g1, g2, g3, g4, g5, g6, g7, g8, g9⟩ :=
      generate_suggestions_ok provider config fs0 st0 raw lines cursor
        current fname suggs hctx hread hprov
    exact ⟨g5, g6⟩
  · intro provider fs0 st0
    exact (fill_section_preserves_preview provider fs0 st0).2.2

theorem preview_state_republished_witness :
    (∃ (st2 : PanelState) (fs2 : WriterDir) (s : Suggestion),
      check_preview_commands navSt navFs = .ok (st2, fs2) ∧
      st2.suggestions.get? st2.preview_index.toNat = some s ∧
      fs2.preview_state = some ⟨st2.preview_index,
        st2.suggestions.length, s.text, st2.mode⟩ ∧
      fs2.suggestion_mode = some st2.mode) ∧
    (fill_section witProvider fillFs staleSt).2.preview_state
      = fillFs.preview_state := by
  refine ⟨(preview_state_republished navSt navFs).1 rfl rfl (by simp [navSt]),
    (preview_state_republished navSt navFs).2.2.2 witProvider fillFs staleSt⟩

/-- C6 counterexample: a tick that sees the fill marker launches the fill
task but does not delete the marker; the directory is unchanged, so the
very next tick launches a second task for the same marker file. -/
theorem fill_marker_double_launch :
    run_tick fillTick.fs witSt = .ok fillTick ∧
    fillTick.launch_fill = true ∧
    fillTick.fs.request_fill_section = some "\x7b\"heading\": \"Intro\"\x7d" ∧
    run_tick fillTick.fs fillTick.st = .ok fillTick :=
  ⟨rfl, rfl, rfl, rfl⟩

/-- C6 amended: the loop launches the fill task whenever the marker exists
but leaves the marker in place (so one marker can launch several tasks
across ticks); the marker is deleted inside the fill task itself, as soon
as its JSON payload has been read successfully. -/
theorem fill_marker_handling :
    (∀ (fs : WriterDir) (st : PanelState) (r : TickResult),
      run_tick fs st = .ok r →
      r.launch_fill = fs.request_fill_section.isSome ∧
      r.fs.request_fill_section = fs.request_fill_section) ∧
    (∀ (provider : Provider) (fs : WriterDir) (st0 : PanelState)
        (raw : String) (d : Json),
      fs.request_fill_section = some raw → loads raw = some d →
      (fill_section provider fs st0).2.request_fill_section = none) := by
  refine ⟨?_, ?_⟩
  · intro fs st r h
    have hs := run_tick_spec fs st r h
    exact ⟨hs.2.1, hs.2.2.2.1⟩
  · intro provider fs st0 raw d hm hl
    exact fill_section_consumes_marker provider fs st0 raw d hm hl

theorem fill_marker_handling_witness :
    (fillTick.launch_fill = fillTick.fs.request_fill_section.isSome ∧
      fillTick.fs.request_fill_section = fillTick.fs.request_fill_section) ∧
    (fill_section witProvider fillFs staleSt).2.request_fill_section
      = none := by
  refine ⟨fill_marker_handling.1 fillTick.fs witSt fillTick rfl, ?_⟩
  exact fill_marker_handling.2 witProvider fillFs staleSt
    "\x7b\"heading\": \"Intro\"\x7d" (.obj [("heading", .str "Intro")]) rfl rfl

/-- C7: preview navigation is cyclic modular arithmetic — advance maps
index i to `(i+1) mod n`, retreat to `(i-1+n) mod n` — and on an empty
candidate set both are silent no-ops that leave the index unchanged and do
not raise. -/
theorem preview_navigation_cyclic (st : PanelState) (fs : WriterDir) :
    (fs.preview_next = true → fs.preview_prev = false → st.suggestions ≠ [] →
      ∃ (st2 : PanelState) (fs2 : WriterDir),
        check_preview_commands st fs = .ok (st2, fs2) ∧
        st2.preview_index
          = (st.preview_index + 1) % (st.suggestions.length : Int)) ∧
    (fs.preview_next = false → fs.preview_prev = true → st.suggestions ≠ [] →
      ∃ (st2 : PanelState) (fs2 : WriterDir),
        check_preview_commands st fs = .ok (st2, fs2) ∧
        st2.preview_index
          = (st.preview_index - 1 + st.suggestions.length)
              % (st.suggestions.length : Int)) ∧
    (st.suggestions = [] →
      check_preview_commands st fs
        = .ok (st, { fs with preview_next := false, preview_prev := false })) := by
  refine ⟨?_, ?_, fun hs => cpc_empty st fs hs⟩
  · intro hn hp hs
    have hlen : st.suggestions.length ≠ 0 :=
      fun h0 => hs (List.length_eq_zero.mp h0)
    have hb := emod_nonneg_lt (st.preview_index + 1) st.suggestions.length hlen
    obtain ⟨x, hx⟩ := get_of_lt st.suggestions
      ((st.preview_index + 1) % (st.suggestions.length : Int)).toNat (by omega)
    exact ⟨_, _, cpc_next st fs x hn hp hs hx, rfl⟩
  · intro hn hp hs
    have hlen : st.suggestions.length ≠ 0 :=
      fun h0 => hs (List.length_eq_zero.mp h0)
    have hb := emod_nonneg_lt (st.preview_index - 1) st.suggestions.length hlen
    obtain ⟨x, hx⟩ := get_of_lt st.suggestions
      ((st.preview_index - 1) % (st.suggestions.length : Int)).toNat (by omega)
    refine ⟨_, _, cpc_prev st fs x hn hp hs hx, ?_⟩
    show (st.preview_index - 1) % (st.suggestions.length : Int)
      = (st.preview_index - 1 + st.suggestions.length)
          % (st.suggestions.length : Int)
    have := Int.add_mul_emod_self_left (a := st.preview_index - 1)
      (b := (st.suggestions.length : Int)) (c := 1)
    simpa using this.symm

theorem preview_navigation_cyclic_witness :
    (∃ (st2 : PanelState) (fs2 : WriterDir),
      check_preview_commands navSt navFs = .ok (st2, fs2) ∧
      st2.preview_index
        = (navSt.preview_index + 1) % (navSt.suggestions.length : Int)) ∧
    (∃ (st2 : PanelState) (fs2 : WriterDir),
      check_preview_commands navSt navPrevFs = .ok (st2, fs2) ∧
      st2.preview_index
        = (navSt.preview_index - 1 + navSt.suggestions.length)
            % (navSt.suggestions.length : Int)) ∧
    check_preview_commands witSt navFs
      = .ok (witSt, { navFs with preview_next := false, preview_prev := false }) :=
  ⟨(preview_navigation_cyclic navSt navFs).1 rfl rfl (by simp [navSt]),
   (preview_navigation_cyclic navSt navPrevFs).2.1 rfl rfl (by simp [navSt]),
   (preview_navigation_cyclic witSt navFs).2.2 rfl⟩

/-- C10: generation is not failure-atomic: on a missing context file, an
unreadable or ill-typed context, or a provider exception, the panel ends
with an empty candidate list and preview index 0 — the previous batch was
cleared before the fallible steps and is not restored — with the error text
in `error_message` (truncated to 100 characters) and `is_loading` reset to
false. -/
theorem generation_failure_resets (provider : Provider) (config : Config) :
    (∀ (fs : WriterDir) (st0 : PanelState), fs.context_json = none →
      (generate_suggestions provider config fs st0).1.suggestions = [] ∧
      (generate_suggestions provider config fs st0).1.preview_index = 0 ∧
      (generate_suggestions provider config fs st0).1.error_message
        = some "No context available" ∧
      (generate_suggestions provider config fs st0).1.is_loading = false) ∧
    (∀ (fs : WriterDir) (st0 : PanelState) (raw : String) (e : PyError),
      fs.context_json = some raw →
      readContext raw st0.filename = .error e →
      (generate_suggestions provider config fs st0).1.suggestions = [] ∧
      (generate_suggestions provider config fs st0).1.preview_index = 0 ∧
      (generate_suggestions provider config fs st0).1.error_message
        = some (e.message.take 100) ∧
      (generate_suggestions provider config fs st0).1.is_loading = false) ∧
    (∀ (fs : WriterDir) (st0 : PanelState) (raw : String)
        (lines : List String) (cursor : Int) (current : String) (fname : Json)
        (msg : String),
      fs.context_json = some raw →
      readContext raw st0.filename = .ok (lines, cursor, current, fname) →
      (∀ ctx n, provider.generate_suggestions ctx n = .error msg) →
      (generate_suggestions provider config fs st0).1.suggestions = [] ∧
      (generate_suggestions provider config fs st0).1.preview_index = 0 ∧
      (generate_suggestions provider config fs st0).1.error_message
        = some (msg.take 100) ∧
      (generate_suggestions provider config fs st0).1.is_loading = false) := by
  refine ⟨?_, ?_, ?_⟩
  · intro fs st0 h
    exact generate_suggestions_no_context provider config fs st0 h
  · intro fs st0 raw e hctx hread
    exact generate_suggestions_bad_context provider config fs st0 raw e
      hctx hread
  · intro fs st0 raw lines cursor current fname msg hctx hread hprov
    exact generate_suggestions_provider_error provider config fs st0 raw
      lines cursor current fname msg hctx hread hprov

theorem generation_failure_resets_witness :
    ((generate_suggestions errProvider ⟨3⟩
        ⟨none, false, none, false, false, [], none, none, none⟩ staleSt).1.suggestions
      = [] ∧
     (generate_suggestions errProvider ⟨3⟩
        ⟨none, false, none, false, false, [], none, none, none⟩ staleSt).1.preview_index
      = 0 ∧
     (generate_suggestions errProvider ⟨3⟩
        ⟨none, false, none, false, false, [], none, none, none⟩ staleSt).1.error_message
      = some "No context available" ∧
     (generate_suggestions errProvider ⟨3⟩
        ⟨none, false, none, false, false, [], none, none, none⟩ staleSt).1.is_loading
      = false) ∧
    ((generate_suggestions errProvider ⟨3⟩
        ⟨some "not json", false, none, false, false, [], none, none, none⟩
        staleSt).1.error_message
      = some (PyError.jsonDecodeError.message.take 100)) ∧
    ((generate_suggestions errProvider ⟨3⟩ witFs staleSt).1.suggestions = [] ∧
     (generate_suggestions errProvider ⟨3⟩ witFs staleSt).1.error_message
      = some (("boom" : String).take 100)) := by
  have h1 := (generation_failure_resets errProvider ⟨3⟩).1
    ⟨none, false, none, false, false, [], none, none, none⟩ staleSt rfl
  have h2 := (generation_failure_resets errProvider ⟨3⟩).2.1
    ⟨some "not json", false, none, false, false, [], none, none, none⟩
    staleSt "not json" PyError.jsonDecodeError rfl rfl
  have h3 := (generation_failure_resets errProvider ⟨3⟩).2.2 witFs staleSt
    witContext ["one", "", "two"] 2 "" (.str "draft.md") "boom" rfl rfl
    (fun _ _ => rfl)
  exact ⟨h1, h2.2.2.1, h3.1, h3.2.2.1⟩

end Writer
